import Mathlib

/-!
Verification development for the json-proof-token repository (JSON Web
Proofs / JSON Proof Tokens).

Shallow embedding conventions:
* Rust byte strings (`&str`, `Vec<u8>`) are `List Nat`, each entry an
  ASCII / byte value `< 256`; `'.'` is byte 46 and `'~'` is byte 126.
* Rust `String` fields that are only stored and compared (claim names,
  header fields, error messages) are Lean `String`.
* Fallible Rust code returns `PResult`: `ok`, `err e` for a returned
  `CustomError`, and `panics` for an `unwrap` / `todo!` / `unreachable!`.
* External collaborators (serde_json, the zkryptium BBS+ library) are
  abstracted as function parameters, exactly as the spec declares them
  out of scope; base64url-nopad (data_encoding::BASE64URL_NOPAD) is
  implemented concretely below.
-/

/-- Outcome of a fallible Rust computation: `ok`, a returned typed error,
or a runtime panic (`unwrap` failure, `todo!`, `unreachable!`). -/
inductive PResult (E : Type) (A : Type) where
  | ok (val : A)
  | err (e : E)
  | panics
  deriving DecidableEq, Repr

/-- Error taxonomy from src/errors.rs (`IncompleteJwpBuild`). -/
inductive IncompleteJwpBuild where
  | NoIssuerHeader
  | NoPresentationHeader
  | NoClaimsAndPayloads
  | NoJwk
  deriving DecidableEq, Repr

/-- Error taxonomy from src/errors.rs (`CustomError`). -/
inductive CustomError where
  | ProofGenerationError (msg : String)
  | ProofVerificationError (msg : String)
  | JwkGenerationError (msg : String)
  | InvalidIssuedJwp
  | InvalidPresentedJwp
  | InvalidIssuedProof
  | InvalidPresentedProof
  | IndexOutOfBounds
  | IncompleteJwpBuildErr (e : IncompleteJwpBuild)
  | FlatteningError
  | SerializationError
  | SelectiveDisclosureError
  deriving DecidableEq, Repr

/-! ## base64url-nopad codec (data_encoding::BASE64URL_NOPAD)

Encoding of a byte list into the URL-safe alphabet without padding,
and the strict decoder that rejects non-alphabet characters, a single
trailing character, and non-canonical trailing bits. -/

/-- The base64url alphabet: maps a 6-bit value to its ASCII code
(A-Z, a-z, 0-9, `-`, `_`). -/
def b64Char (n : Nat) : Nat :=
  if n < 26 then 65 + n
  else if n < 52 then 97 + (n - 26)
  else if n < 62 then 48 + (n - 52)
  else if n = 62 then 45
  else 95

/-- Inverse of the base64url alphabet: ASCII code to 6-bit value,
`none` for characters outside the alphabet. -/
def b64Val (c : Nat) : Option Nat :=
  if 65 ≤ c ∧ c ≤ 90 then some (c - 65)
  else if 97 ≤ c ∧ c ≤ 122 then some (c - 97 + 26)
  else if 48 ≤ c ∧ c ≤ 57 then some (c - 48 + 52)
  else if c = 45 then some 62
  else if c = 95 then some 63
  else none

/-- base64url-nopad encoding of a byte list (each byte `< 256`). -/
def b64urlEncode : List Nat → List Nat
  | [] => []
  | [b1] => [b64Char (b1 / 4), b64Char (b1 % 4 * 16)]
  | [b1, b2] =>
      [b64Char (b1 / 4), b64Char (b1 % 4 * 16 + b2 / 16), b64Char (b2 % 16 * 4)]
  | b1 :: b2 :: b3 :: rest =>
      b64Char (b1 / 4) :: b64Char (b1 % 4 * 16 + b2 / 16) ::
        b64Char (b2 % 16 * 4 + b3 / 64) :: b64Char (b3 % 64) :: b64urlEncode rest

/-- Strict base64url-nopad decoding: `none` on any character outside the
alphabet, on a length ≡ 1 (mod 4) tail, or on non-zero trailing bits. -/
def b64urlDecode : List Nat → Option (List Nat)
  | [] => some []
  | [_] => none
  | [c1, c2] =>
      match b64Val c1, b64Val c2 with
      | some v1, some v2 =>
          if v2 % 16 = 0 then some [v1 * 4 + v2 / 16] else none
      | _, _ => none
  | [c1, c2, c3] =>
      match b64Val c1, b64Val c2, b64Val c3 with
      | some v1, some v2, some v3 =>
          if v3 % 4 = 0 then
            some [v1 * 4 + v2 / 16, v2 % 16 * 16 + v3 / 4]
          else none
      | _, _, _ => none
  | c1 :: c2 :: c3 :: c4 :: rest =>
      match b64Val c1, b64Val c2, b64Val c3, b64Val c4 with
      | some v1, some v2, some v3, some v4 =>
          match b64urlDecode rest with
          | some bs =>
              some ((v1 * 4 + v2 / 16) :: (v2 % 16 * 16 + v3 / 4) ::
                      (v3 % 4 * 64 + v4) :: bs)
          | none => none
      | _, _, _, _ => none

/-! ## Rust string splitting (`str::splitn`) and joining (`join`) -/

/-- Split off the part of `s` before the first occurrence of byte `sep`,
together with the remainder after it; `none` when `sep` does not occur. -/
def splitFirst (sep : Nat) : List Nat → Option (List Nat × List Nat)
  | [] => none
  | c :: rest =>
      if c = sep then some ([], rest)
      else
        match splitFirst sep rest with
        | some (a, b) => some (c :: a, b)
        | none => none

/-- Rust `s.splitn(n, sep)`: at most `n` pieces, splitting from the left;
the final piece keeps any remaining separators. `splitn 0` is empty. -/
def splitn : Nat → Nat → List Nat → List (List Nat)
  | 0, _, _ => []
  | 1, _, s => [s]
  | n + 2, sep, s =>
      match splitFirst sep s with
      | none => [s]
      | some (a, b) => a :: splitn (n + 1) sep b

/-- Rust `Vec::join(sep)` on byte-string tokens. -/
def joinSep (sep : Nat) : List (List Nat) → List Nat
  | [] => []
  | [t] => t
  | t :: ts => t ++ sep :: joinSep sep ts

/-! ## Codec lemmas -/

theorem b64Val_b64Char (n : Nat) (h : n < 64) : b64Val (b64Char n) = some n := by
  have : (∀ m : Fin 64, b64Val (b64Char m.val) = some m.val) := by decide
  exact this ⟨n, h⟩

theorem b64Char_lt (n : Nat) (h : n < 64) : b64Char n < 256 := by
  have : (∀ m : Fin 64, b64Char m.val < 256) := by decide
  exact this ⟨n, h⟩

theorem b64Char_ne_dot (n : Nat) : b64Char n ≠ 46 := by
  unfold b64Char
  split <;> [omega; split <;> [omega; split <;> [omega; split <;> omega]]]

theorem b64Char_ne_tilde (n : Nat) : b64Char n ≠ 126 := by
  unfold b64Char
  split <;> [omega; split <;> [omega; split <;> [omega; split <;> omega]]]

theorem b64urlDecode_b64urlEncode (bs : List Nat) (h : ∀ b ∈ bs, b < 256) :
    b64urlDecode (b64urlEncode bs) = some bs := by
  match bs with
  | [] => rfl
  | [b1] =>
      have h1 : b1 < 256 := h b1 (by simp)
      show b64urlDecode [b64Char (b1 / 4), b64Char (b1 % 4 * 16)] = some [b1]
      simp only [b64urlDecode, b64Val_b64Char (b1 / 4) (by omega),
        b64Val_b64Char (b1 % 4 * 16) (by omega)]
      rw [if_pos (by omega)]
      simp only [Option.some.injEq, List.cons.injEq, and_true]
      omega
  | [b1, b2] =>
      have h1 : b1 < 256 := h b1 (by simp)
      have h2 : b2 < 256 := h b2 (by simp)
      show b64urlDecode [b64Char (b1 / 4), b64Char (b1 % 4 * 16 + b2 / 16),
        b64Char (b2 % 16 * 4)] = some [b1, b2]
      simp only [b64urlDecode, b64Val_b64Char (b1 / 4) (by omega),
        b64Val_b64Char (b1 % 4 * 16 + b2 / 16) (by omega),
        b64Val_b64Char (b2 % 16 * 4) (by omega)]
      rw [if_pos (by omega)]
      simp only [Option.some.injEq, List.cons.injEq, and_true]
      constructor <;> omega
  | b1 :: b2 :: b3 :: rest =>
      have h1 : b1 < 256 := h b1 (by simp)
      have h2 : b2 < 256 := h b2 (by simp)
      have h3 : b3 < 256 := h b3 (by simp)
      have hrest : ∀ b ∈ rest, b < 256 := by
        intro b hb; exact h b (by simp [hb])
      have hih := b64urlDecode_b64urlEncode rest hrest
      show b64urlDecode (b64Char (b1 / 4) :: b64Char (b1 % 4 * 16 + b2 / 16) ::
        b64Char (b2 % 16 * 4 + b3 / 64) :: b64Char (b3 % 64) :: b64urlEncode rest) =
        some (b1 :: b2 :: b3 :: rest)
      match henc : b64urlEncode rest with
      | [] =>
          rw [henc] at hih
          have hrnil : rest = [] := by
            simp only [b64urlDecode, Option.some.injEq] at hih
            exact hih.symm
          subst hrnil
          simp only [b64urlDecode, b64Val_b64Char (b1 / 4) (by omega),
            b64Val_b64Char (b1 % 4 * 16 + b2 / 16) (by omega),
            b64Val_b64Char (b2 % 16 * 4 + b3 / 64) (by omega),
            b64Val_b64Char (b3 % 64) (by omega),
            Option.some.injEq, List.cons.injEq, and_true]
          refine ⟨by omega, by omega, by omega⟩
      | c :: cs =>
          rw [henc] at hih
          simp only [b64urlDecode, b64Val_b64Char (b1 / 4) (by omega),
            b64Val_b64Char (b1 % 4 * 16 + b2 / 16) (by omega),
            b64Val_b64Char (b2 % 16 * 4 + b3 / 64) (by omega),
            b64Val_b64Char (b3 % 64) (by omega)]
          rw [hih]
          simp only [Option.some.injEq, List.cons.injEq, and_true]
          refine ⟨by omega, by omega, by omega⟩

theorem b64urlEncode_lt (bs : List Nat) : ∀ c ∈ b64urlEncode bs, c ∉ ([46, 126] : List Nat) := by
  match bs with
  | [] => intro c hc; simp [b64urlEncode] at hc
  | [b1] =>
      intro c hc
      simp only [b64urlEncode, List.mem_cons, List.not_mem_nil, or_false] at hc
      rcases hc with h | h <;>
        · subst h
          simp [b64Char_ne_dot, b64Char_ne_tilde]
  | [b1, b2] =>
      intro c hc
      simp only [b64urlEncode, List.mem_cons, List.not_mem_nil, or_false] at hc
      rcases hc with h | h | h <;>
        · subst h
          simp [b64Char_ne_dot, b64Char_ne_tilde]
  | b1 :: b2 :: b3 :: rest =>
      intro c hc
      simp only [b64urlEncode, List.mem_cons] at hc
      rcases hc with h | h | h | h | h
      · subst h; simp [b64Char_ne_dot, b64Char_ne_tilde]
      · subst h; simp [b64Char_ne_dot, b64Char_ne_tilde]
      · subst h; simp [b64Char_ne_dot, b64Char_ne_tilde]
      · subst h; simp [b64Char_ne_dot, b64Char_ne_tilde]
      · exact b64urlEncode_lt rest c h

theorem b64urlEncode_not_dot (bs : List Nat) : 46 ∉ b64urlEncode bs := by
  intro hmem
  exact (b64urlEncode_lt bs 46 hmem) (by simp)

theorem b64urlEncode_not_tilde (bs : List Nat) : 126 ∉ b64urlEncode bs := by
  intro hmem
  exact (b64urlEncode_lt bs 126 hmem) (by simp)

theorem b64urlEncode_ne_nil (bs : List Nat) (h : bs ≠ []) : b64urlEncode bs ≠ [] := by
  match bs with
  | [] => exact absurd rfl h
  | [_] => simp [b64urlEncode]
  | [_, _] => simp [b64urlEncode]
  | _ :: _ :: _ :: _ => simp [b64urlEncode]

theorem splitFirst_append (sep : Nat) (a b : List Nat) (ha : sep ∉ a) :
    splitFirst sep (a ++ sep :: b) = some (a, b) := by
  induction a with
  | nil => simp [splitFirst]
  | cons c rest ih =>
      have hc : c ≠ sep := fun h => ha (by simp [h])
      have hrest : sep ∉ rest := fun h => ha (by simp [h])
      show splitFirst sep (c :: (rest ++ sep :: b)) = some (c :: rest, b)
      simp only [splitFirst, if_neg hc, ih hrest]

theorem splitFirst_not_mem (sep : Nat) (s : List Nat) (h : sep ∉ s) :
    splitFirst sep s = none := by
  induction s with
  | nil => rfl
  | cons c rest ih =>
      have hc : c ≠ sep := fun hh => h (by simp [hh])
      have hrest : sep ∉ rest := fun hh => h (by simp [hh])
      simp only [splitFirst, if_neg hc, ih hrest]

/-- `splitn` recovers the token list from its `sep`-join when the token
count bound equals the number of tokens and no token contains `sep`. -/
theorem splitn_joinSep (sep : Nat) (ts : List (List Nat))
    (h : ∀ t ∈ ts, sep ∉ t) :
    splitn ts.length sep (joinSep sep ts) = ts := by
  match ts with
  | [] => rfl
  | [t] => rfl
  | t :: t2 :: rest =>
      have ht : sep ∉ t := h t (by simp)
      have hrest : ∀ u ∈ t2 :: rest, sep ∉ u := by
        intro u hu
        exact h u (by simp only [List.mem_cons] at hu ⊢; tauto)
      have hind := splitn_joinSep sep (t2 :: rest) hrest
      have hjoin : joinSep sep (t :: t2 :: rest) = t ++ sep :: joinSep sep (t2 :: rest) := rfl
      have hlen : (t :: t2 :: rest).length = rest.length + 2 := by simp
      rw [hlen, hjoin]
      show (match splitFirst sep (t ++ sep :: joinSep sep (t2 :: rest)) with
        | none => [t ++ sep :: joinSep sep (t2 :: rest)]
        | some (a, b) => a :: splitn (rest.length + 1) sep b) = t :: t2 :: rest
      rw [splitFirst_append sep t _ ht]
      show t :: splitn (rest.length + 1) sep (joinSep sep (t2 :: rest)) = t :: t2 :: rest
      simp only [List.length_cons] at hind
      rw [hind]

/-! ## Algorithm registry (src/jpa/algs.rs) -/

/-- Proof algorithms for Issued JWPs (src/jpa/algs.rs `ProofAlgorithm`). -/
inductive ProofAlgorithm where
  | BBS
  | BBS_SHAKE256
  | SU_ES256
  | SU_ES384
  | SU_ES512
  | MAC_H256
  | MAC_H384
  | MAC_H512
  | MAC_K25519
  | MAC_K448
  | MAC_H256K
  deriving DecidableEq, Repr

/-- Proof algorithms for Presented JWPs (src/jpa/algs.rs
`PresentationProofAlgorithm`). -/
inductive PresentationProofAlgorithm where
  | BBS
  | BBS_SHAKE256
  | SU_ES256
  | SU_ES384
  | SU_ES512
  | MAC_H256
  | MAC_H384
  | MAC_H512
  | MAC_K25519
  | MAC_K448
  | MAC_H256K
  deriving DecidableEq, Repr

/-! ## Keys (src/jwk) -/

/-- Elliptic curve identifiers (src/jwk/curves.rs `EllipticCurveTypes`). -/
inductive EllipticCurveTypes where
  | P256
  | P384
  | P521
  | Ed25519
  | Ed448
  | X25519
  | X448
  | Secp256K1
  | Bls12381G2
  deriving DecidableEq, Repr

/-- The serde serialization token of each curve variant, as fixed by the
`#[serde(rename = ...)]` attributes on `EllipticCurveTypes` (variants
without a rename keep their Rust name). -/
def EllipticCurveTypes.serdeToken : EllipticCurveTypes → String
  | .P256 => "P-256"
  | .P384 => "P-384"
  | .P521 => "P-521"
  | .Ed25519 => "Ed25519"
  | .Ed448 => "Ed448"
  | .X25519 => "X25519"
  | .X448 => "X448"
  | .Secp256K1 => "secp256k1"
  | .Bls12381G2 => "Bls12381G2"

/-- The serde deserialization of a curve token: the unique variant whose
serde token matches, `none` otherwise (a serde error). -/
def EllipticCurveTypes.fromToken (s : String) : Option EllipticCurveTypes :=
  if s = "P-256" then some .P256
  else if s = "P-384" then some .P384
  else if s = "P-521" then some .P521
  else if s = "Ed25519" then some .Ed25519
  else if s = "Ed448" then some .Ed448
  else if s = "X25519" then some .X25519
  else if s = "X448" then some .X448
  else if s = "secp256k1" then some .Secp256K1
  else if s = "Bls12381G2" then some .Bls12381G2
  else none

/-- Key types (src/jwk/types.rs `KeyType`). -/
inductive KeyType where
  | EllipticCurve
  | RSA
  | Octet
  | OctetKeyPair
  deriving DecidableEq, Repr

/-- Key operations (src/jwk/key.rs `KeyOps`). -/
inductive KeyOps where
  | Sign
  | Verify
  | Encrypt
  | Decrypt
  | WrapKey
  | UnwrapKey
  | DeriveKey
  | DeriveBits
  | ProofGeneration
  | ProofVerification
  deriving DecidableEq, Repr

/-- The `key_ops` inverse table (src/jwk/key.rs `KeyOps::inverse`). -/
def KeyOps.inverse : KeyOps → KeyOps
  | .Sign => .Verify
  | .Verify => .Sign
  | .Encrypt => .Decrypt
  | .Decrypt => .Encrypt
  | .WrapKey => .UnwrapKey
  | .UnwrapKey => .WrapKey
  | .DeriveKey => .DeriveKey
  | .DeriveBits => .DeriveBits
  | .ProofGeneration => .ProofVerification
  | .ProofVerification => .ProofVerification

/-- Public-key use (src/jwk/key.rs `PKUse`). -/
inductive PKUse where
  | Signature
  | Encryption
  | Proof
  deriving DecidableEq, Repr

/-- src/jwk/alg_parameters.rs `Algorithm` (only the `Proof` family exists). -/
inductive Algorithm where
  | Proof (alg : ProofAlgorithm)
  deriving DecidableEq, Repr

/-- Octet Key Pair JWK parameters (src/jwk/alg_parameters.rs
`JwkOctetKeyPairParameters`); `x` and `d` hold base64url text as byte
strings. -/
structure JwkOctetKeyPairParameters where
  kty : KeyType
  crv : EllipticCurveTypes
  x : List Nat
  d : Option (List Nat)
  deriving DecidableEq, Repr

/-- `JwkOctetKeyPairParameters::to_public`. -/
def JwkOctetKeyPairParameters.to_public (p : JwkOctetKeyPairParameters) :
    JwkOctetKeyPairParameters :=
  { kty := KeyType.OctetKeyPair, crv := p.crv, x := p.x, d := none }

/-- `JwkOctetKeyPairParameters::is_public`. -/
def JwkOctetKeyPairParameters.is_public (p : JwkOctetKeyPairParameters) : Bool :=
  p.d.isNone

/-- `JwkOctetKeyPairParameters::is_private`. -/
def JwkOctetKeyPairParameters.is_private (p : JwkOctetKeyPairParameters) : Bool :=
  p.d.isSome

/-- Elliptic Curve JWK parameters (src/jwk/alg_parameters.rs
`JwkEllipticCurveKeyParameters`). -/
structure JwkEllipticCurveKeyParameters where
  kty : KeyType
  crv : EllipticCurveTypes
  x : List Nat
  y : List Nat
  d : Option (List Nat)
  deriving DecidableEq, Repr

/-- `JwkEllipticCurveKeyParameters::to_public`: note that the source sets
`kty: KeyType::OctetKeyPair` in this EC variant. -/
def JwkEllipticCurveKeyParameters.to_public (p : JwkEllipticCurveKeyParameters) :
    JwkEllipticCurveKeyParameters :=
  { kty := KeyType.OctetKeyPair, crv := p.crv, x := p.x, y := p.y, d := none }

/-- `JwkEllipticCurveKeyParameters::is_public`. -/
def JwkEllipticCurveKeyParameters.is_public (p : JwkEllipticCurveKeyParameters) : Bool :=
  p.d.isNone

/-- `JwkEllipticCurveKeyParameters::is_private`. -/
def JwkEllipticCurveKeyParameters.is_private (p : JwkEllipticCurveKeyParameters) : Bool :=
  p.d.isSome

/-- src/jwk/alg_parameters.rs `JwkAlgorithmParameters`. -/
inductive JwkAlgorithmParameters where
  | EllipticCurve (p : JwkEllipticCurveKeyParameters)
  | OctetKeyPair (p : JwkOctetKeyPairParameters)
  deriving DecidableEq, Repr

/-- `JwkAlgorithmParameters::to_public`. -/
def JwkAlgorithmParameters.to_public : JwkAlgorithmParameters →
    Option JwkAlgorithmParameters
  | .OctetKeyPair inner => some (.OctetKeyPair inner.to_public)
  | .EllipticCurve value => some (.EllipticCurve value.to_public)

/-- `JwkAlgorithmParameters::is_public`. -/
def JwkAlgorithmParameters.is_public : JwkAlgorithmParameters → Bool
  | .OctetKeyPair value => value.is_public
  | .EllipticCurve value => value.is_public

/-- `JwkAlgorithmParameters::is_private`. -/
def JwkAlgorithmParameters.is_private : JwkAlgorithmParameters → Bool
  | .OctetKeyPair value => value.is_private
  | .EllipticCurve value => value.is_private

/-- JWK (src/jwk/key.rs `Jwk`). -/
structure Jwk where
  kid : Option String
  pk_use : Option PKUse
  key_ops : Option (List KeyOps)
  alg : Option Algorithm
  x5u : Option String
  x5c : Option (List String)
  x5t : Option String
  key_params : JwkAlgorithmParameters
  deriving DecidableEq, Repr

/-- `Jwk::from_key_params`. -/
def Jwk.from_key_params (key_params : JwkAlgorithmParameters) : Jwk :=
  { kid := none, pk_use := none, key_ops := none, alg := none,
    x5u := none, x5c := none, x5t := none, key_params := key_params }

/-- `Jwk::is_public`. -/
def Jwk.is_public (j : Jwk) : Bool := j.key_params.is_public

/-- `Jwk::is_private`. -/
def Jwk.is_private (j : Jwk) : Bool := j.key_params.is_private

/-- `Jwk::to_public`: rebuild from the public key params, copy every
optional field, and replace each `key_ops` entry by its inverse. -/
def Jwk.to_public (j : Jwk) : Option Jwk :=
  match j.key_params.to_public with
  | none => none
  | some params =>
      some { Jwk.from_key_params params with
              kid := j.kid,
              pk_use := j.pk_use,
              key_ops := j.key_ops.map (fun ops => ops.map KeyOps.inverse),
              alg := j.alg,
              x5u := j.x5u,
              x5c := j.x5c,
              x5t := j.x5t }

/-- src/jwk/utils.rs `check_alg_curve_compatibility`. -/
def check_alg_curve_compatibility (alg : Algorithm) (crv : EllipticCurveTypes) : Bool :=
  match alg, crv with
  | .Proof .BBS, .Bls12381G2 => true
  | .Proof .BBS_SHAKE256, .Bls12381G2 => true
  | _, _ => false

/-- src/jwk/utils.rs `check_presentation_alg_curve_compatibility`. -/
def check_presentation_alg_curve_compatibility (alg : PresentationProofAlgorithm)
    (crv : EllipticCurveTypes) : Bool :=
  match alg, crv with
  | .BBS, .Bls12381G2 => true
  | .BBS_SHAKE256, .Bls12381G2 => true
  | _, _ => false

/-! ## Claims and payloads (src/jpt) -/

/-- Ordered claim names (src/jpt/claims.rs `Claims`). -/
structure Claims where
  val : List String
  deriving DecidableEq, Repr

/-- Per-payload disclosure tag (src/jpt/payloads.rs `PayloadType`). -/
inductive PayloadType where
  | Disclosed
  | Undisclosed
  | ProofMethods
  deriving DecidableEq, Repr

/-- Ordered payloads (src/jpt/payloads.rs `Payloads`); `Value` abstracts
`serde_json::Value`. -/
structure Payloads (Value : Type) where
  val : List (Value × PayloadType)
  deriving DecidableEq, Repr

/-- `Payloads::new_from_values`: every value is tagged Disclosed. -/
def Payloads.new_from_values {Value : Type} (values : List Value) : Payloads Value :=
  ⟨values.map (fun value => (value, PayloadType.Disclosed))⟩

/-- `Payloads::get_values`. -/
def Payloads.get_values {Value : Type} (p : Payloads Value) : List Value :=
  p.val.map Prod.fst

/-- `Payloads::get_disclosed_indexes`. -/
def Payloads.get_disclosed_indexes {Value : Type} (p : Payloads Value) : List Nat :=
  (List.range p.val.length).filter
    (fun i => match p.val.get? i with
              | some (_, PayloadType.Disclosed) => true
              | _ => false)

/-- `Payloads::get_undisclosed_indexes`. -/
def Payloads.get_undisclosed_indexes {Value : Type} (p : Payloads Value) : List Nat :=
  (List.range p.val.length).filter
    (fun i => match p.val.get? i with
              | some (_, PayloadType.Undisclosed) => true
              | _ => false)

/-- `Payloads::set_undisclosed(index)`: iterates over all entries and
flips the tag of the one whose position equals `index`; positions out of
range match nothing and the vector is returned unchanged. -/
def Payloads.set_undisclosed {Value : Type} (p : Payloads Value) (index : Nat) :
    Payloads Value :=
  ⟨(p.val.enum).map (fun iv =>
      if index = iv.1 then (iv.2.1, PayloadType.Undisclosed) else iv.2)⟩

/-- `Payloads::to_bytes` modulo the abstract serde encoder `toVec`
(`serde_json::to_vec` never fails on a `Value`, so this is total). -/
def Payloads.to_bytes {Value : Type} (toVec : Value → List Nat) (p : Payloads Value) :
    List (List Nat) :=
  p.val.map (fun v => toVec v.1)

/-! ## Protected headers (src/jwp/header.rs) -/

/-- JWP Issuer Protected Header. -/
structure IssuerProtectedHeader where
  typ : Option String
  alg : ProofAlgorithm
  kid : Option String
  cid : Option String
  claims : Option Claims
  crit : Option (List String)
  iss : Option String
  proof_key : Option Jwk
  deriving DecidableEq, Repr

/-- `IssuerProtectedHeader::new`: sets the algorithm and `typ = "JPT"`. -/
def IssuerProtectedHeader.new (alg : ProofAlgorithm) : IssuerProtectedHeader :=
  { typ := some "JPT", alg := alg, kid := none, cid := none,
    claims := none, crit := none, iss := none, proof_key := none }

/-- `IssuerProtectedHeader::set_claims`. -/
def IssuerProtectedHeader.set_claims (h : IssuerProtectedHeader)
    (value : Option Claims) : IssuerProtectedHeader :=
  { h with claims := value }

/-- JWP Presentation Protected Header. -/
structure PresentationProtectedHeader where
  alg : PresentationProofAlgorithm
  kid : Option String
  aud : Option String
  nonce : Option String
  typ : Option String
  crit : Option (List String)
  iss : Option String
  presentation_key : Option Jwk
  deriving DecidableEq, Repr

/-- `PresentationProtectedHeader::new`. -/
def PresentationProtectedHeader.new (alg : PresentationProofAlgorithm) :
    PresentationProtectedHeader :=
  { alg := alg, kid := none, aud := none, nonce := none, typ := none,
    crit := none, iss := none, presentation_key := none }

/-! ## JptClaims (src/jpt/claims.rs)

`JptClaims` serializes (with serde, preserving insertion order) to a JSON
object: the six registered claims in declared order, each omitted when
`None`, followed by the flattened `custom` entries. `strVal` and `intVal`
abstract the injections of Rust strings and `i64` into
`serde_json::Value`. -/

/-- The registered claim fields of src/jpt/claims.rs `JptClaims`, plus the
flattened custom claims in insertion order. -/
structure JptClaims (Value : Type) where
  iss : Option String
  sub : Option String
  exp : Option Int
  nbf : Option Int
  iat : Option Int
  jti : Option String
  custom : List (String × Value)
  deriving DecidableEq, Repr

/-- One serialized object entry for an optional field (omitted if none). -/
def optEntry {Value : Type} (name : String) (v : Option Value) :
    List (String × Value) :=
  match v with
  | none => []
  | some x => [(name, x)]

/-- The ordered key/value pairs of `serde_json::to_value(self)` for a
`JptClaims` (serde field order, skipping absent options, then the
flattened custom map). -/
def JptClaims.toObjectPairs {Value : Type} (strVal : String → Value)
    (intVal : Int → Value) (jc : JptClaims Value) : List (String × Value) :=
  optEntry "iss" (jc.iss.map strVal) ++ optEntry "sub" (jc.sub.map strVal) ++
  optEntry "exp" (jc.exp.map intVal) ++ optEntry "nbf" (jc.nbf.map intVal) ++
  optEntry "iat" (jc.iat.map intVal) ++ optEntry "jti" (jc.jti.map strVal) ++
  jc.custom

/-- `JptClaims::get_claims_and_payloads`: unzip the serialized object
pairs into the claim-name vector and the payload vector. -/
def JptClaims.get_claims_and_payloads {Value : Type} (strVal : String → Value)
    (intVal : Int → Value) (jc : JptClaims Value) : Claims × Payloads Value :=
  let pairs := jc.toObjectPairs strVal intVal
  (⟨pairs.map Prod.fst⟩, Payloads.new_from_values (pairs.map Prod.snd))

/-! ## BBS+ engine (src/jpa/bbs_plus.rs)

The zkryptium pairing library is the spec's declared-external BBS
primitive: `sign` abstracts `Signature::sign ∘ to_bytes` (together with
`map_message_to_scalar_as_hash` and the `from_bytes` key parsing) and
`proofGen` abstracts `PoKSignature::proof_gen ∘ to_bytes` likewise. Both
engine entry points keep the crate's own control flow exactly: the
OKP-only key-parameter match (the source match lists no other arm), the
private/public check, the algorithm/curve compatibility gate, the
base64url decoding of `x` (whose `unwrap` panics on invalid base64) and
the 96-byte length conversion whose failure maps to
`ProofGenerationError("key is not compatible")`. -/

/-- The error value built at every incompatibility site in
src/jpa/bbs_plus.rs. -/
def keyNotCompatible : CustomError :=
  CustomError.ProofGenerationError "key is not compatible"

/-- `BBSplusAlgorithm::generate_issuer_proof`. -/
def BBSplusAlgorithm.generate_issuer_proof {Value : Type}
    (sign : ProofAlgorithm → List Nat → List Nat → List Nat →
      List (List Nat) → List Nat)
    (toVec : Value → List Nat)
    (alg : ProofAlgorithm) (payloads : Payloads Value) (key : Jwk)
    (issuer_header : List Nat) : PResult CustomError (List Nat) :=
  match key.key_params with
  | .EllipticCurve _ => .panics
  | .OctetKeyPair params =>
      if params.is_private = false then .err keyNotCompatible
      else if check_alg_curve_compatibility (.Proof alg) params.crv = false then
        .err keyNotCompatible
      else
        match b64urlDecode params.x with
        | none => .panics
        | some dec_pk =>
            if dec_pk.length = 96 then
              match params.d with
              | none => .panics
              | some dtext =>
                  match b64urlDecode dtext with
                  | none => .panics
                  | some sk =>
                      match alg with
                      | .BBS =>
                          .ok (sign .BBS sk dec_pk issuer_header
                                (payloads.to_bytes toVec))
                      | .BBS_SHAKE256 =>
                          .ok (sign .BBS_SHAKE256 sk dec_pk issuer_header
                                (payloads.to_bytes toVec))
                      | _ => .panics
            else .err keyNotCompatible

/-- `BBSplusAlgorithm::generate_presentation_proof`. -/
def BBSplusAlgorithm.generate_presentation_proof {Value : Type}
    (proofGen : PresentationProofAlgorithm → List Nat → List Nat → List Nat →
      List Nat → List (List Nat) → List Nat → List Nat)
    (toVec : Value → List Nat)
    (alg : PresentationProofAlgorithm) (signature : List Nat)
    (payloads : Payloads Value) (key : Jwk)
    (issuer_header presentation_header : List Nat) :
    PResult CustomError (List Nat) :=
  match key.key_params with
  | .EllipticCurve _ => .panics
  | .OctetKeyPair params =>
      if params.is_public = false then .err keyNotCompatible
      else if check_presentation_alg_curve_compatibility alg params.crv = false then
        .err keyNotCompatible
      else
        match b64urlDecode params.x with
        | none => .panics
        | some dec_pk =>
            if dec_pk.length = 96 then
              match alg with
              | .BBS =>
                  .ok (proofGen .BBS signature dec_pk issuer_header
                        presentation_header (payloads.to_bytes toVec)
                        payloads.get_disclosed_indexes)
              | .BBS_SHAKE256 =>
                  .ok (proofGen .BBS_SHAKE256 signature dec_pk issuer_header
                        presentation_header (payloads.to_bytes toVec)
                        payloads.get_disclosed_indexes)
              | _ => .panics
            else .err keyNotCompatible

/-! ## Issued JWP (src/jwp/issued.rs) -/

/-- `JwpIssuedBuilder`. -/
structure JwpIssuedBuilder (Value : Type) where
  issuer_protected_header : Option IssuerProtectedHeader
  payloads : Option (Payloads Value)
  deriving DecidableEq, Repr

/-- `JwpIssuedBuilder::new`: flatten the claims, stamp the claim names
into the header, and hold both. -/
def JwpIssuedBuilder.new {Value : Type} (strVal : String → Value)
    (intVal : Int → Value) (issuer_protected_header : IssuerProtectedHeader)
    (jpt_claims : JptClaims Value) : JwpIssuedBuilder Value :=
  let cp := jpt_claims.get_claims_and_payloads strVal intVal
  { issuer_protected_header :=
      some (issuer_protected_header.set_claims (some cp.1)),
    payloads := some cp.2 }

/-- A decoded-and-built Issued JWP (`JwpIssued`). -/
structure JwpIssued (Value : Type) where
  issuer_protected_header : IssuerProtectedHeader
  payloads : Payloads Value
  proof : List Nat
  deriving DecidableEq, Repr

/-- `JwpIssuedBuilder::generate_proof`: dispatch on the algorithm; only
the BBS family is implemented, all other arms are `todo!()`. -/
def JwpIssuedBuilder.generate_proof {Value : Type}
    (sign : ProofAlgorithm → List Nat → List Nat → List Nat →
      List (List Nat) → List Nat)
    (toVec : Value → List Nat)
    (alg : ProofAlgorithm) (key : Jwk) (issuer_header_oct : List Nat)
    (payloads : Payloads Value) : PResult CustomError (List Nat) :=
  match alg with
  | .BBS | .BBS_SHAKE256 =>
      BBSplusAlgorithm.generate_issuer_proof sign toVec alg payloads key
        issuer_header_oct
  | _ => .panics

/-- `JwpIssuedBuilder::build`: serialize the header (via the abstract
serde encoder `ihToVec`), generate the issuer proof, and assemble the
`JwpIssued`. -/
def JwpIssuedBuilder.build {Value : Type}
    (sign : ProofAlgorithm → List Nat → List Nat → List Nat →
      List (List Nat) → List Nat)
    (toVec : Value → List Nat)
    (ihToVec : IssuerProtectedHeader → List Nat)
    (b : JwpIssuedBuilder Value) (jwk : Jwk) :
    PResult CustomError (JwpIssued Value) :=
  match b.issuer_protected_header with
  | none => .err (.IncompleteJwpBuildErr .NoIssuerHeader)
  | some ih =>
      match b.payloads with
      | none => .err (.IncompleteJwpBuildErr .NoClaimsAndPayloads)
      | some pl =>
          match JwpIssuedBuilder.generate_proof sign toVec ih.alg jwk
              (ihToVec ih) pl with
          | .ok proof => .ok ⟨ih, pl, proof⟩
          | .err e => .err e
          | .panics => .panics

/-- The `~`-joined payload piece of a COMPACT serialization: Undisclosed
entries contribute an empty token, all others the base64url encoding of
the serde bytes of their value. -/
def encodePayloads {Value : Type} (toVec : Value → List Nat)
    (payloads : Payloads Value) : List Nat :=
  joinSep 126 (payloads.val.map (fun p =>
    if p.2 = PayloadType.Undisclosed then [] else b64urlEncode (toVec p.1)))

/-- `JwpIssued::serialize` for `SerializationType::COMPACT`. -/
def JwpIssued.serialize {Value : Type} (toVec : Value → List Nat)
    (issuer_header_oct : List Nat) (payloads : Payloads Value)
    (proof : List Nat) : List Nat :=
  b64urlEncode issuer_header_oct ++
    46 :: (encodePayloads toVec payloads ++ 46 :: b64urlEncode proof)

/-- `JwpIssued::encode` for COMPACT (the `serde_json::to_vec` error arm
cannot fire for the abstract total encoder). -/
def JwpIssued.encode {Value : Type} (toVec : Value → List Nat)
    (ihToVec : IssuerProtectedHeader → List Nat) (j : JwpIssued Value) :
    PResult CustomError (List Nat) :=
  .ok (JwpIssued.serialize toVec (ihToVec j.issuer_protected_header)
        j.payloads j.proof)

/-- `JwpIssuedDecoder` (decoded, pending verification). -/
structure JwpIssuedDecoder (Value : Type) where
  issuer_protected_header : IssuerProtectedHeader
  payloads : Payloads Value
  proof : List Nat
  deriving DecidableEq, Repr

/-- Decoding of one `~`-token: the empty token becomes
`(Null, Undisclosed)`; a non-empty token must be base64url of valid
serde bytes (`none` models the `unwrap` panic sites in the closure). -/
def decodePayloadToken {Value : Type} (fromSlice : List Nat → Option Value)
    (nullV : Value) (v : List Nat) : Option (Value × PayloadType) :=
  if v = [] then some (nullV, PayloadType.Undisclosed)
  else
    match b64urlDecode v with
    | none => none
    | some bs =>
        match fromSlice bs with
        | none => none
        | some val => some (val, PayloadType.Disclosed)

/-- Decoding of the whole token list (the eager `collect`). -/
def decodePayloadTokens {Value : Type} (fromSlice : List Nat → Option Value)
    (nullV : Value) : List (List Nat) → Option (List (Value × PayloadType))
  | [] => some []
  | t :: ts =>
      match decodePayloadToken fromSlice nullV t,
        decodePayloadTokens fromSlice nullV ts with
      | some p, some ps => some (p :: ps)
      | _, _ => none

/-- `JwpIssuedDecoder::decode` for COMPACT: split on `.` into exactly
three pieces (else `InvalidIssuedJwp`), header parse failure is
`SerializationError`, `claims().unwrap()` on a missing claims field is a
panic, the middle piece is split on `~` with the claim count as the
`splitn` bound, per-token `unwrap`s are panics, then the count check,
then the proof is base64url-decoded (panicking on invalid input). -/
def JwpIssuedDecoder.decode {Value : Type}
    (ihFromSlice : List Nat → Option IssuerProtectedHeader)
    (fromSlice : List Nat → Option Value) (nullV : Value) (jpt : List Nat) :
    PResult CustomError (JwpIssuedDecoder Value) :=
  match splitn 3 46 jpt with
  | [encoded_header, encoded_payloads, encoded_proof] =>
      match b64urlDecode encoded_header with
      | none => .panics
      | some hbytes =>
          match ihFromSlice hbytes with
          | none => .err .SerializationError
          | some issuer_protected_header =>
              match issuer_protected_header.claims with
              | none => .panics
              | some claims =>
                  match decodePayloadTokens fromSlice nullV
                      (splitn claims.val.length 126 encoded_payloads) with
                  | none => .panics
                  | some pl =>
                      if claims.val.length = pl.length then
                        match b64urlDecode encoded_proof with
                        | none => .panics
                        | some proof =>
                            .ok ⟨issuer_protected_header, ⟨pl⟩, proof⟩
                      else .err .InvalidIssuedJwp
  | _ => .err .InvalidIssuedJwp

/-! ## Presented JWP (src/jwp/presented.rs) -/

/-- `JwpPresentedBuilder`. -/
structure JwpPresentedBuilder (Value : Type) where
  issuer_protected_header : IssuerProtectedHeader
  presentation_protected_header : Option PresentationProtectedHeader
  payloads : Payloads Value
  issuer_proof : List Nat
  deriving DecidableEq, Repr

/-- `JwpPresentedBuilder::new` from a verified Issued JWP. -/
def JwpPresentedBuilder.new {Value : Type} (issued_jwp : JwpIssued Value) :
    JwpPresentedBuilder Value :=
  { issuer_protected_header := issued_jwp.issuer_protected_header,
    presentation_protected_header := none,
    payloads := issued_jwp.payloads,
    issuer_proof := issued_jwp.proof }

/-- `JwpPresentedBuilder::set_presentation_protected_header`. -/
def JwpPresentedBuilder.set_presentation_protected_header {Value : Type}
    (b : JwpPresentedBuilder Value) (header : PresentationProtectedHeader) :
    JwpPresentedBuilder Value :=
  { b with presentation_protected_header := some header }

/-- `JwpPresentedBuilder::set_undisclosed(claim)`: look the name up in
the issuer header claims (`SelectiveDisclosureError` when absent or when
there is no claims vector) and flip the payload at the found index. -/
def JwpPresentedBuilder.set_undisclosed {Value : Type}
    (b : JwpPresentedBuilder Value) (claim : String) :
    PResult CustomError (JwpPresentedBuilder Value) :=
  match b.issuer_protected_header.claims.bind
      (fun c => c.val.findIdx? (fun x => x == claim)) with
  | none => .err .SelectiveDisclosureError
  | some index => .ok { b with payloads := b.payloads.set_undisclosed index }

/-- Decoded and built JSON Web Proof in the Presentation form
(`JwpPresented`). -/
structure JwpPresented (Value : Type) where
  issuer_protected_header : IssuerProtectedHeader
  presentation_protected_header : PresentationProtectedHeader
  payloads : Payloads Value
  proof : List Nat
  deriving DecidableEq, Repr

/-- `JwpPresentedBuilder::generate_proof`: only the BBS family is
implemented, all other arms are `todo!()`. -/
def JwpPresentedBuilder.generate_proof {Value : Type}
    (proofGen : PresentationProofAlgorithm → List Nat → List Nat → List Nat →
      List Nat → List (List Nat) → List Nat → List Nat)
    (toVec : Value → List Nat)
    (alg : PresentationProofAlgorithm) (key : Jwk) (issuer_proof : List Nat)
    (issuer_header_oct presentation_header_oct : List Nat)
    (payloads : Payloads Value) : PResult CustomError (List Nat) :=
  match alg with
  | .BBS | .BBS_SHAKE256 =>
      BBSplusAlgorithm.generate_presentation_proof proofGen toVec alg
        issuer_proof payloads key issuer_header_oct presentation_header_oct
  | _ => .panics

/-- `JwpPresentedBuilder::build` (note: the source reports a missing
presentation header as `IncompleteJwpBuild::NoIssuerHeader`). -/
def JwpPresentedBuilder.build {Value : Type}
    (proofGen : PresentationProofAlgorithm → List Nat → List Nat → List Nat →
      List Nat → List (List Nat) → List Nat → List Nat)
    (toVec : Value → List Nat)
    (ihToVec : IssuerProtectedHeader → List Nat)
    (phToVec : PresentationProtectedHeader → List Nat)
    (b : JwpPresentedBuilder Value) (jwk : Jwk) :
    PResult CustomError (JwpPresented Value) :=
  match b.presentation_protected_header with
  | none => .err (.IncompleteJwpBuildErr .NoIssuerHeader)
  | some ph =>
      match JwpPresentedBuilder.generate_proof proofGen toVec ph.alg jwk
          b.issuer_proof (ihToVec b.issuer_protected_header) (phToVec ph)
          b.payloads with
      | .ok proof =>
          .ok ⟨b.issuer_protected_header, ph, b.payloads, proof⟩
      | .err e => .err e
      | .panics => .panics

/-- `JwpPresented::serialize` for COMPACT: four dot-separated pieces. -/
def JwpPresented.serialize {Value : Type} (toVec : Value → List Nat)
    (presentation_header_oct issuer_header_oct : List Nat)
    (payloads : Payloads Value) (proof : List Nat) : List Nat :=
  b64urlEncode issuer_header_oct ++
    46 :: (b64urlEncode presentation_header_oct ++
      46 :: (encodePayloads toVec payloads ++ 46 :: b64urlEncode proof))

/-- `JwpPresented::encode` for COMPACT. -/
def JwpPresented.encode {Value : Type} (toVec : Value → List Nat)
    (ihToVec : IssuerProtectedHeader → List Nat)
    (phToVec : PresentationProtectedHeader → List Nat)
    (j : JwpPresented Value) : PResult CustomError (List Nat) :=
  .ok (JwpPresented.serialize toVec (phToVec j.presentation_protected_header)
        (ihToVec j.issuer_protected_header) j.payloads j.proof)

/-- `JwpPresentedDecoder` (decoded, pending verification). -/
structure JwpPresentedDecoder (Value : Type) where
  issuer_protected_header : IssuerProtectedHeader
  presentation_protected_header : PresentationProtectedHeader
  payloads : Payloads Value
  proof : List Nat
  deriving DecidableEq, Repr

/-- `JwpPresentedDecoder::decode` for COMPACT: split on `.` into exactly
four pieces (else `InvalidPresentedJwp`); the presentation header is
parsed before the issuer header, both with `SerializationError` on parse
failure; then exactly the issued-side payload decoding, count check
(`InvalidIssuedJwp` on mismatch), and proof decoding. -/
def JwpPresentedDecoder.decode {Value : Type}
    (ihFromSlice : List Nat → Option IssuerProtectedHeader)
    (phFromSlice : List Nat → Option PresentationProtectedHeader)
    (fromSlice : List Nat → Option Value) (nullV : Value) (jpt : List Nat) :
    PResult CustomError (JwpPresentedDecoder Value) :=
  match splitn 4 46 jpt with
  | [encoded_issuer_header, encoded_presentation_header,
      encoded_payloads, encoded_proof] =>
      match b64urlDecode encoded_presentation_header with
      | none => .panics
      | some phbytes =>
          match phFromSlice phbytes with
          | none => .err .SerializationError
          | some presentation_protected_header =>
              match b64urlDecode encoded_issuer_header with
              | none => .panics
              | some hbytes =>
                  match ihFromSlice hbytes with
                  | none => .err .SerializationError
                  | some issuer_protected_header =>
                      match issuer_protected_header.claims with
                      | none => .panics
                      | some claims =>
                          match decodePayloadTokens fromSlice nullV
                              (splitn claims.val.length 126 encoded_payloads) with
                          | none => .panics
                          | some pl =>
                              if claims.val.length = pl.length then
                                match b64urlDecode encoded_proof with
                                | none => .panics
                                | some proof =>
                                    .ok ⟨issuer_protected_header,
                                          presentation_protected_header,
                                          ⟨pl⟩, proof⟩
                              else .err .InvalidIssuedJwp
  | _ => .err .InvalidPresentedJwp

/-! ## Roundtrip helper lemmas -/

/-- The payload vector a decoder reconstructs: Undisclosed entries come
back as `(Null, Undisclosed)`, all other entries unchanged. -/
def Payloads.erased {Value : Type} (nullV : Value) (p : Payloads Value) :
    Payloads Value :=
  ⟨p.val.map (fun q =>
    if q.2 = PayloadType.Undisclosed then (nullV, PayloadType.Undisclosed) else q)⟩

theorem splitn_three (a b c : List Nat) (ha : 46 ∉ a) (hb : 46 ∉ b)
    (hc : 46 ∉ c) : splitn 3 46 (a ++ 46 :: (b ++ 46 :: c)) = [a, b, c] := by
  show (match splitFirst 46 (a ++ 46 :: (b ++ 46 :: c)) with
    | none => [a ++ 46 :: (b ++ 46 :: c)]
    | some (x, y) => x :: splitn 2 46 y) = [a, b, c]
  rw [splitFirst_append 46 a _ ha]
  show a :: (match splitFirst 46 (b ++ 46 :: c) with
    | none => [b ++ 46 :: c]
    | some (x, y) => x :: splitn 1 46 y) = [a, b, c]
  rw [splitFirst_append 46 b _ hb]
  rfl

theorem splitn_four (a b c d : List Nat) (ha : 46 ∉ a) (hb : 46 ∉ b)
    (hc : 46 ∉ c) (hd : 46 ∉ d) :
    splitn 4 46 (a ++ 46 :: (b ++ 46 :: (c ++ 46 :: d))) = [a, b, c, d] := by
  show (match splitFirst 46 (a ++ 46 :: (b ++ 46 :: (c ++ 46 :: d))) with
    | none => [a ++ 46 :: (b ++ 46 :: (c ++ 46 :: d))]
    | some (x, y) => x :: splitn 3 46 y) = [a, b, c, d]
  rw [splitFirst_append 46 a _ ha]
  show a :: splitn 3 46 (b ++ 46 :: (c ++ 46 :: d)) = [a, b, c, d]
  rw [splitn_three b c d hb hc hd]

theorem mem_joinSep {x sep : Nat} (ts : List (List Nat))
    (h : x ∈ joinSep sep ts) : x = sep ∨ ∃ t ∈ ts, x ∈ t := by
  match ts with
  | [] => simp [joinSep] at h
  | [t] =>
      right
      exact ⟨t, by simp, h⟩
  | t :: t2 :: rest =>
      have hj : joinSep sep (t :: t2 :: rest) = t ++ sep :: joinSep sep (t2 :: rest) := rfl
      rw [hj] at h
      rcases (List.mem_append.mp h) with h1 | h2
      · right; exact ⟨t, by simp, h1⟩
      · rcases (List.mem_cons.mp h2) with h3 | h4
        · left; exact h3
        · rcases mem_joinSep (t2 :: rest) h4 with h5 | ⟨u, hu, hxu⟩
          · left; exact h5
          · right
            refine ⟨u, ?_, hxu⟩
            simp only [List.mem_cons] at hu ⊢
            tauto

/-- The per-payload token list of a COMPACT serialization. -/
def payloadTokens {Value : Type} (toVec : Value → List Nat)
    (pl : Payloads Value) : List (List Nat) :=
  pl.val.map (fun p =>
    if p.2 = PayloadType.Undisclosed then [] else b64urlEncode (toVec p.1))

theorem encodePayloads_eq_joinSep {Value : Type} (toVec : Value → List Nat)
    (pl : Payloads Value) :
    encodePayloads toVec pl = joinSep 126 (payloadTokens toVec pl) := rfl

theorem payloadTokens_tilde_free {Value : Type} (toVec : Value → List Nat)
    (pl : Payloads Value) : ∀ t ∈ payloadTokens toVec pl, 126 ∉ t := by
  intro t ht
  simp only [payloadTokens, List.mem_map] at ht
  obtain ⟨p, _, hp⟩ := ht
  by_cases hu : p.2 = PayloadType.Undisclosed
  · rw [if_pos hu] at hp
    rw [← hp]
    exact List.not_mem_nil 126
  · rw [if_neg hu] at hp
    rw [← hp]
    exact b64urlEncode_not_tilde _

theorem not_dot_encodePayloads {Value : Type} (toVec : Value → List Nat)
    (pl : Payloads Value) : 46 ∉ encodePayloads toVec pl := by
  intro h
  rw [encodePayloads_eq_joinSep] at h
  rcases mem_joinSep _ h with h1 | ⟨t, ht, hx⟩
  · omega
  · simp only [payloadTokens, List.mem_map] at ht
    obtain ⟨p, _, hp⟩ := ht
    by_cases hu : p.2 = PayloadType.Undisclosed
    · rw [if_pos hu] at hp
      rw [← hp] at hx
      exact List.not_mem_nil 46 hx
    · rw [if_neg hu] at hp
      rw [← hp] at hx
      exact b64urlEncode_not_dot _ hx

theorem decodePayloadTokens_payloadTokens {Value : Type}
    (toVec : Value → List Nat) (fromSlice : List Nat → Option Value)
    (nullV : Value) (pl : List (Value × PayloadType))
    (hpm : ∀ p ∈ pl, p.2 ≠ PayloadType.ProofMethods)
    (hrt : ∀ p ∈ pl, p.2 = PayloadType.Disclosed →
      fromSlice (toVec p.1) = some p.1)
    (hb : ∀ p ∈ pl, ∀ b ∈ toVec p.1, b < 256)
    (hne : ∀ p ∈ pl, toVec p.1 ≠ []) :
    decodePayloadTokens fromSlice nullV (payloadTokens toVec ⟨pl⟩) =
      some ((Payloads.erased nullV ⟨pl⟩).val) := by
  induction pl with
  | nil => rfl
  | cons p rest ih =>
      have hpm1 : p.2 ≠ PayloadType.ProofMethods := hpm p (by simp)
      have hrt1 := hrt p (by simp)
      have hb1 := hb p (by simp)
      have hne1 := hne p (by simp)
      have ihr := ih (fun q hq => hpm q (by simp [hq]))
        (fun q hq => hrt q (by simp [hq])) (fun q hq => hb q (by simp [hq]))
        (fun q hq => hne q (by simp [hq]))
      have htok : payloadTokens toVec ⟨p :: rest⟩ =
          (if p.2 = PayloadType.Undisclosed then []
            else b64urlEncode (toVec p.1)) :: payloadTokens toVec ⟨rest⟩ := rfl
      have herased : (Payloads.erased nullV ⟨p :: rest⟩).val =
          (if p.2 = PayloadType.Undisclosed then (nullV, PayloadType.Undisclosed)
            else p) :: (Payloads.erased nullV ⟨rest⟩).val := rfl
      rw [htok, herased]
      by_cases hu : p.2 = PayloadType.Undisclosed
      · rw [if_pos hu, if_pos hu]
        show (match decodePayloadToken fromSlice nullV [],
          decodePayloadTokens fromSlice nullV (payloadTokens toVec ⟨rest⟩) with
          | some q, some ps => some (q :: ps)
          | _, _ => none) = _
        rw [ihr]
        rfl
      · have hd : p.2 = PayloadType.Disclosed := by
          cases hpt : p.2 with
          | Disclosed => rfl
          | Undisclosed => exact absurd hpt hu
          | ProofMethods => exact absurd hpt hpm1
        rw [if_neg hu, if_neg hu]
        show (match decodePayloadToken fromSlice nullV (b64urlEncode (toVec p.1)),
          decodePayloadTokens fromSlice nullV (payloadTokens toVec ⟨rest⟩) with
          | some q, some ps => some (q :: ps)
          | _, _ => none) = _
        have htokdec : decodePayloadToken fromSlice nullV
            (b64urlEncode (toVec p.1)) = some (p.1, PayloadType.Disclosed) := by
          rw [decodePayloadToken,
            if_neg (b64urlEncode_ne_nil (toVec p.1) hne1),
            b64urlDecode_b64urlEncode _ hb1]
          show (match fromSlice (toVec p.1) with
            | none => none
            | some val => some (val, PayloadType.Disclosed)) =
            some (p.1, PayloadType.Disclosed)
          rw [hrt1 hd]
        rw [htokdec, ihr]
        have hp : p = (p.1, PayloadType.Disclosed) := by
          cases p with
          | mk a b =>
              simp only at hd
              rw [hd]
        rw [← hp]

theorem payloadTokens_length {Value : Type} (toVec : Value → List Nat)
    (pl : Payloads Value) : (payloadTokens toVec pl).length = pl.val.length := by
  simp [payloadTokens]

theorem erased_length {Value : Type} (nullV : Value) (pl : Payloads Value) :
    (Payloads.erased nullV pl).val.length = pl.val.length := by
  simp [Payloads.erased]

theorem splitn_segment {Value : Type} (toVec : Value → List Nat)
    (pl : Payloads Value) (n : Nat) (hn : n = pl.val.length) :
    splitn n 126 (encodePayloads toVec pl) = payloadTokens toVec pl := by
  rw [encodePayloads_eq_joinSep]
  have h := splitn_joinSep 126 (payloadTokens toVec pl)
    (payloadTokens_tilde_free toVec pl)
  rw [payloadTokens_length] at h
  rw [hn]
  exact h

theorem decode_serialize_issued {Value : Type}
    (toVec : Value → List Nat) (fromSlice : List Nat → Option Value)
    (nullV : Value)
    (ihToVec : IssuerProtectedHeader → List Nat)
    (ihFromSlice : List Nat → Option IssuerProtectedHeader)
    (ih : IssuerProtectedHeader) (cl : Claims) (pl : Payloads Value)
    (proof : List Nat)
    (hcl : ih.claims = some cl)
    (hlen : cl.val.length = pl.val.length)
    (hIH : ihFromSlice (ihToVec ih) = some ih)
    (hIHb : ∀ b ∈ ihToVec ih, b < 256)
    (hpm : ∀ p ∈ pl.val, p.2 ≠ PayloadType.ProofMethods)
    (hrt : ∀ p ∈ pl.val, p.2 = PayloadType.Disclosed →
      fromSlice (toVec p.1) = some p.1)
    (hb : ∀ p ∈ pl.val, ∀ b ∈ toVec p.1, b < 256)
    (hne : ∀ p ∈ pl.val, toVec p.1 ≠ [])
    (hpf : ∀ b ∈ proof, b < 256) :
    JwpIssuedDecoder.decode ihFromSlice fromSlice nullV
      (JwpIssued.serialize toVec (ihToVec ih) pl proof) =
      .ok ⟨ih, Payloads.erased nullV pl, proof⟩ := by
  have h3 : splitn 3 46 (JwpIssued.serialize toVec (ihToVec ih) pl proof) =
      [b64urlEncode (ihToVec ih), encodePayloads toVec pl,
        b64urlEncode proof] :=
    splitn_three _ _ _ (b64urlEncode_not_dot _)
      (not_dot_encodePayloads _ _) (b64urlEncode_not_dot _)
  have hseg := splitn_segment toVec pl cl.val.length hlen
  have htoks := decodePayloadTokens_payloadTokens toVec fromSlice nullV
    pl.val hpm hrt hb hne
  have hiflen : cl.val.length = (Payloads.erased nullV pl).val.length := by
    rw [erased_length]; exact hlen
  unfold JwpIssuedDecoder.decode
  rw [h3]
  simp only [b64urlDecode_b64urlEncode _ hIHb, hIH, hcl, hseg, htoks,
    b64urlDecode_b64urlEncode _ hpf, if_pos hiflen]

theorem decode_serialize_presented {Value : Type}
    (toVec : Value → List Nat) (fromSlice : List Nat → Option Value)
    (nullV : Value)
    (ihToVec : IssuerProtectedHeader → List Nat)
    (ihFromSlice : List Nat → Option IssuerProtectedHeader)
    (phToVec : PresentationProtectedHeader → List Nat)
    (phFromSlice : List Nat → Option PresentationProtectedHeader)
    (ih : IssuerProtectedHeader) (ph : PresentationProtectedHeader)
    (cl : Claims) (pl : Payloads Value) (proof : List Nat)
    (hcl : ih.claims = some cl)
    (hlen : cl.val.length = pl.val.length)
    (hIH : ihFromSlice (ihToVec ih) = some ih)
    (hIHb : ∀ b ∈ ihToVec ih, b < 256)
    (hPH : phFromSlice (phToVec ph) = some ph)
    (hPHb : ∀ b ∈ phToVec ph, b < 256)
    (hpm : ∀ p ∈ pl.val, p.2 ≠ PayloadType.ProofMethods)
    (hrt : ∀ p ∈ pl.val, p.2 = PayloadType.Disclosed →
      fromSlice (toVec p.1) = some p.1)
    (hb : ∀ p ∈ pl.val, ∀ b ∈ toVec p.1, b < 256)
    (hne : ∀ p ∈ pl.val, toVec p.1 ≠ [])
    (hpf : ∀ b ∈ proof, b < 256) :
    JwpPresentedDecoder.decode ihFromSlice phFromSlice fromSlice nullV
      (JwpPresented.serialize toVec (phToVec ph) (ihToVec ih) pl proof) =
      .ok ⟨ih, ph, Payloads.erased nullV pl, proof⟩ := by
  have h4 : splitn 4 46 (JwpPresented.serialize toVec (phToVec ph)
      (ihToVec ih) pl proof) =
      [b64urlEncode (ihToVec ih), b64urlEncode (phToVec ph),
        encodePayloads toVec pl, b64urlEncode proof] :=
    splitn_four _ _ _ _ (b64urlEncode_not_dot _) (b64urlEncode_not_dot _)
      (not_dot_encodePayloads _ _) (b64urlEncode_not_dot _)
  have hseg := splitn_segment toVec pl cl.val.length hlen
  have htoks := decodePayloadTokens_payloadTokens toVec fromSlice nullV
    pl.val hpm hrt hb hne
  have hiflen : cl.val.length = (Payloads.erased nullV pl).val.length := by
    rw [erased_length]; exact hlen
  unfold JwpPresentedDecoder.decode
  rw [h4]
  simp only [b64urlDecode_b64urlEncode _ hIHb, hIH,
    b64urlDecode_b64urlEncode _ hPHb, hPH, hcl, hseg, htoks,
    b64urlDecode_b64urlEncode _ hpf, if_pos hiflen]

/-! ## Builder inversion and flattening facts -/

theorem issued_build_new_ok {Value : Type}
    (sign : ProofAlgorithm → List Nat → List Nat → List Nat →
      List (List Nat) → List Nat)
    (toVec : Value → List Nat) (ihToVec : IssuerProtectedHeader → List Nat)
    (strVal : String → Value) (intVal : Int → Value)
    (ih : IssuerProtectedHeader) (jc : JptClaims Value) (jwk : Jwk)
    (jwp : JwpIssued Value)
    (h : JwpIssuedBuilder.build sign toVec ihToVec
      (JwpIssuedBuilder.new strVal intVal ih jc) jwk = .ok jwp) :
    jwp.issuer_protected_header =
      ih.set_claims (some (jc.get_claims_and_payloads strVal intVal).1) ∧
    jwp.payloads = (jc.get_claims_and_payloads strVal intVal).2 := by
  simp only [JwpIssuedBuilder.build, JwpIssuedBuilder.new] at h
  split at h
  · injection h with h2
    subst h2
    exact ⟨rfl, rfl⟩
  · simp at h
  · simp at h

theorem presented_build_ok {Value : Type}
    (proofGen : PresentationProofAlgorithm → List Nat → List Nat → List Nat →
      List Nat → List (List Nat) → List Nat → List Nat)
    (toVec : Value → List Nat) (ihToVec : IssuerProtectedHeader → List Nat)
    (phToVec : PresentationProtectedHeader → List Nat)
    (pb : JwpPresentedBuilder Value) (jwk : Jwk) (jwp : JwpPresented Value)
    (h : JwpPresentedBuilder.build proofGen toVec ihToVec phToVec pb jwk =
      .ok jwp) :
    jwp.issuer_protected_header = pb.issuer_protected_header ∧
    jwp.payloads = pb.payloads := by
  unfold JwpPresentedBuilder.build at h
  split at h
  · simp at h
  · split at h
    · injection h with h2
      subst h2
      exact ⟨rfl, rfl⟩
    · simp at h
    · simp at h

theorem gcp_length {Value : Type} (strVal : String → Value)
    (intVal : Int → Value) (jc : JptClaims Value) :
    (jc.get_claims_and_payloads strVal intVal).1.val.length =
      (jc.get_claims_and_payloads strVal intVal).2.val.length := by
  simp [JptClaims.get_claims_and_payloads, Payloads.new_from_values]

theorem gcp_disclosed {Value : Type} (strVal : String → Value)
    (intVal : Int → Value) (jc : JptClaims Value) :
    ∀ p ∈ (jc.get_claims_and_payloads strVal intVal).2.val,
      p.2 = PayloadType.Disclosed := by
  intro p hp
  simp only [JptClaims.get_claims_and_payloads, Payloads.new_from_values,
    List.mem_map] at hp
  obtain ⟨v, _, hpe⟩ := hp
  rw [← hpe]

theorem erased_eq_of_disclosed {Value : Type} (nullV : Value)
    (pl : Payloads Value)
    (h : ∀ p ∈ pl.val, p.2 = PayloadType.Disclosed) :
    Payloads.erased nullV pl = pl := by
  cases pl with
  | mk l =>
      simp only [Payloads.erased, Payloads.mk.injEq]
      induction l with
      | nil => rfl
      | cons p rest ih =>
          have hp := h p (by simp)
          have hrest := ih (fun q hq => h q (by simp [hq]))
          simp only [List.map_cons, hp, hrest]
          simp

/-! ## Concrete instantiation of the external interfaces (used to
exhibit concrete executions: serde and the BBS library are replaced by
trivial total functions, which the abstract interface permits). -/

/-- A concrete payload-value serializer on `Bool` values. -/
def boolToVec : Bool → List Nat := fun b => if b then [1] else [0]

/-- The matching payload-value parser. -/
def boolFromSlice : List Nat → Option Bool := fun l =>
  if l = [1] then some true else if l = [0] then some false else none

/-- A concrete BBS signing function (constant output). -/
def signW : ProofAlgorithm → List Nat → List Nat → List Nat →
    List (List Nat) → List Nat := fun _ _ _ _ _ => [7]

/-- A concrete BBS presentation proof generator (constant output). -/
def proofGenW : PresentationProofAlgorithm → List Nat → List Nat → List Nat →
    List Nat → List (List Nat) → List Nat → List Nat := fun _ _ _ _ _ _ _ => [9]

/-- A concrete injection of strings into `Bool`-valued JSON. -/
def strValW : String → Bool := fun _ => false

/-- A concrete injection of integers into `Bool`-valued JSON. -/
def intValW : Int → Bool := fun _ => false

/-- The stamped issuer header of the concrete run: `new(BBS)` with the
claims vector `["a"]` sealed in. -/
def ihSample : IssuerProtectedHeader :=
  { typ := some "JPT", alg := .BBS, kid := none, cid := none,
    claims := some ⟨["a"]⟩, crit := none, iss := none, proof_key := none }

/-- The concrete presentation header (algorithm BBS, nothing else). -/
def phSample : PresentationProtectedHeader :=
  PresentationProtectedHeader.new .BBS

/-- A concrete issuer-header serde encoder. -/
def ihToVecW : IssuerProtectedHeader → List Nat := fun _ => [2]

/-- The matching issuer-header parser. -/
def ihFromSliceW : List Nat → Option IssuerProtectedHeader := fun l =>
  if l = [2] then some ihSample else none

/-- A concrete presentation-header serde encoder. -/
def phToVecW : PresentationProtectedHeader → List Nat := fun _ => [3]

/-- The matching presentation-header parser. -/
def phFromSliceW : List Nat → Option PresentationProtectedHeader := fun l =>
  if l = [3] then some phSample else none

/-- A 96-byte public key in base64url form. -/
def xSample : List Nat := b64urlEncode (List.replicate 96 0)

/-- A concrete private OKP JWK on the BLS12-381 G2 curve. -/
def jwkPriv : Jwk := Jwk.from_key_params
  (.OctetKeyPair ⟨.OctetKeyPair, .Bls12381G2, xSample, some (b64urlEncode [5])⟩)

/-- The matching public OKP JWK. -/
def jwkPub : Jwk := Jwk.from_key_params
  (.OctetKeyPair ⟨.OctetKeyPair, .Bls12381G2, xSample, none⟩)

/-- A concrete claim set: one custom claim `"a"` with value `true`. -/
def jcSample : JptClaims Bool :=
  { iss := none, sub := none, exp := none, nbf := none, iat := none,
    jti := none, custom := [("a", true)] }

/-- The issued JWP the concrete build produces. -/
def jwpIS : JwpIssued Bool := ⟨ihSample, ⟨[(true, PayloadType.Disclosed)]⟩, [7]⟩

/-- A presented builder seeded from the concrete issued JWP, with the
payload `"a"` marked Undisclosed and the presentation header set. -/
def pbSample : JwpPresentedBuilder Bool :=
  ⟨ihSample, some phSample, ⟨[(true, PayloadType.Undisclosed)]⟩, [7]⟩

/-- The presented JWP the concrete build produces. -/
def jwpPS : JwpPresented Bool :=
  ⟨ihSample, phSample, ⟨[(true, PayloadType.Undisclosed)]⟩, [9]⟩

/-! ## Claim C1 -/

/-- C1 (amended): for every issued JWP produced by
`JwpIssuedBuilder::build`, decoding its COMPACT encoding with
`JwpIssuedDecoder::decode` yields an object whose issuer protected
header, payloads and proof bytes equal those of the original
component-wise. For every presented JWP produced by
`JwpPresentedBuilder::build`, decoding its COMPACT encoding yields equal
headers and proof bytes and payloads that agree on every Disclosed
entry, but each Undisclosed payload comes back as `(Null, Undisclosed)`;
component-wise payload equality therefore holds only when every
undisclosed payload value is already null. Hypotheses state that the
abstract serde codecs inverse each other on the values in play, that
serde output bytes are bytes, and that value encodings are non-empty. -/
theorem C1_roundtrip {Value : Type}
    (toVec : Value → List Nat) (fromSlice : List Nat → Option Value)
    (nullV : Value)
    (ihToVec : IssuerProtectedHeader → List Nat)
    (ihFromSlice : List Nat → Option IssuerProtectedHeader)
    (phToVec : PresentationProtectedHeader → List Nat)
    (phFromSlice : List Nat → Option PresentationProtectedHeader)
    (sign : ProofAlgorithm → List Nat → List Nat → List Nat →
      List (List Nat) → List Nat)
    (proofGen : PresentationProofAlgorithm → List Nat → List Nat → List Nat →
      List Nat → List (List Nat) → List Nat → List Nat)
    (strVal : String → Value) (intVal : Int → Value)
    (ih : IssuerProtectedHeader) (jc : JptClaims Value) (jwk : Jwk)
    (jwpI : JwpIssued Value)
    (hbuildI : JwpIssuedBuilder.build sign toVec ihToVec
      (JwpIssuedBuilder.new strVal intVal ih jc) jwk = .ok jwpI)
    (pb : JwpPresentedBuilder Value) (pjwk : Jwk) (clP : Claims)
    (jwpP : JwpPresented Value)
    (hbuildP : JwpPresentedBuilder.build proofGen toVec ihToVec phToVec pb
      pjwk = .ok jwpP)
    (hclP : jwpP.issuer_protected_header.claims = some clP)
    (hlenP : clP.val.length = jwpP.payloads.val.length)
    (htagP : ∀ p ∈ jwpP.payloads.val, p.2 ≠ PayloadType.ProofMethods)
    (hIHI : ihFromSlice (ihToVec jwpI.issuer_protected_header) =
      some jwpI.issuer_protected_header)
    (hIHIb : ∀ b ∈ ihToVec jwpI.issuer_protected_header, b < 256)
    (hrtI : ∀ p ∈ jwpI.payloads.val, p.2 = PayloadType.Disclosed →
      fromSlice (toVec p.1) = some p.1)
    (hbI : ∀ p ∈ jwpI.payloads.val, ∀ b ∈ toVec p.1, b < 256)
    (hneI : ∀ p ∈ jwpI.payloads.val, toVec p.1 ≠ [])
    (hpfI : ∀ b ∈ jwpI.proof, b < 256)
    (hIHP : ihFromSlice (ihToVec jwpP.issuer_protected_header) =
      some jwpP.issuer_protected_header)
    (hIHPb : ∀ b ∈ ihToVec jwpP.issuer_protected_header, b < 256)
    (hPHP : phFromSlice (phToVec jwpP.presentation_protected_header) =
      some jwpP.presentation_protected_header)
    (hPHPb : ∀ b ∈ phToVec jwpP.presentation_protected_header, b < 256)
    (hrtP : ∀ p ∈ jwpP.payloads.val, p.2 = PayloadType.Disclosed →
      fromSlice (toVec p.1) = some p.1)
    (hbP : ∀ p ∈ jwpP.payloads.val, ∀ b ∈ toVec p.1, b < 256)
    (hneP : ∀ p ∈ jwpP.payloads.val, toVec p.1 ≠ [])
    (hpfP : ∀ b ∈ jwpP.proof, b < 256) :
    JwpIssuedDecoder.decode ihFromSlice fromSlice nullV
        (JwpIssued.serialize toVec (ihToVec jwpI.issuer_protected_header)
          jwpI.payloads jwpI.proof) =
      .ok ⟨jwpI.issuer_protected_header, jwpI.payloads, jwpI.proof⟩ ∧
    JwpPresentedDecoder.decode ihFromSlice phFromSlice fromSlice nullV
        (JwpPresented.serialize toVec
          (phToVec jwpP.presentation_protected_header)
          (ihToVec jwpP.issuer_protected_header) jwpP.payloads jwpP.proof) =
      .ok ⟨jwpP.issuer_protected_header, jwpP.presentation_protected_header,
            Payloads.erased nullV jwpP.payloads, jwpP.proof⟩ := by
  constructor
  · obtain ⟨hih, hpl⟩ := issued_build_new_ok sign toVec ihToVec strVal intVal
      ih jc jwk jwpI hbuildI
    have hdisc : ∀ p ∈ jwpI.payloads.val, p.2 = PayloadType.Disclosed := by
      rw [hpl]; exact gcp_disclosed strVal intVal jc
    have hcl : jwpI.issuer_protected_header.claims =
        some (jc.get_claims_and_payloads strVal intVal).1 := by
      rw [hih]; rfl
    have hlen : (jc.get_claims_and_payloads strVal intVal).1.val.length =
        jwpI.payloads.val.length := by
      rw [hpl]; exact gcp_length strVal intVal jc
    have h := decode_serialize_issued toVec fromSlice nullV ihToVec
      ihFromSlice jwpI.issuer_protected_header
      (jc.get_claims_and_payloads strVal intVal).1 jwpI.payloads jwpI.proof
      hcl hlen hIHI hIHIb
      (fun p hp => by simp [hdisc p hp]) hrtI hbI hneI hpfI
    rw [erased_eq_of_disclosed nullV jwpI.payloads hdisc] at h
    exact h
  · exact decode_serialize_presented toVec fromSlice nullV ihToVec
      ihFromSlice phToVec phFromSlice jwpP.issuer_protected_header
      jwpP.presentation_protected_header clP jwpP.payloads jwpP.proof hclP
      hlenP hIHP hIHPb hPHP hPHPb htagP hrtP hbP hneP hpfP

/-- C1 counterexample: a presented JWP produced by
`JwpPresentedBuilder::build` whose single payload is `(true, Undisclosed)`
decodes from its COMPACT encoding to `(Null, Undisclosed)`, so the
decoded object does not equal the original component-wise. -/
theorem C1_roundtrip_counterexample :
    JwpPresentedBuilder.build proofGenW boolToVec ihToVecW phToVecW pbSample
      jwkPub = .ok jwpPS ∧
    JwpPresented.encode boolToVec ihToVecW phToVecW jwpPS =
      .ok (JwpPresented.serialize boolToVec (phToVecW phSample)
        (ihToVecW ihSample) jwpPS.payloads jwpPS.proof) ∧
    JwpPresentedDecoder.decode ihFromSliceW phFromSliceW boolFromSlice false
        (JwpPresented.serialize boolToVec (phToVecW phSample)
          (ihToVecW ihSample) jwpPS.payloads jwpPS.proof) =
      .ok ⟨ihSample, phSample, ⟨[(false, PayloadType.Undisclosed)]⟩, [9]⟩ ∧
    (⟨ihSample, phSample, ⟨[(false, PayloadType.Undisclosed)]⟩, [9]⟩ :
        JwpPresentedDecoder Bool) ≠
      ⟨jwpPS.issuer_protected_header, jwpPS.presentation_protected_header,
        jwpPS.payloads, jwpPS.proof⟩ := by
  refine ⟨by decide, by decide, by decide, by decide⟩

/-- C1 witness: the amended roundtrip at the concrete issued and
presented JWPs built above. -/
theorem C1_roundtrip_witness :
    JwpIssuedDecoder.decode ihFromSliceW boolFromSlice false
        (JwpIssued.serialize boolToVec (ihToVecW jwpIS.issuer_protected_header)
          jwpIS.payloads jwpIS.proof) =
      .ok ⟨jwpIS.issuer_protected_header, jwpIS.payloads, jwpIS.proof⟩ ∧
    JwpPresentedDecoder.decode ihFromSliceW phFromSliceW boolFromSlice false
        (JwpPresented.serialize boolToVec
          (phToVecW jwpPS.presentation_protected_header)
          (ihToVecW jwpPS.issuer_protected_header) jwpPS.payloads jwpPS.proof) =
      .ok ⟨jwpPS.issuer_protected_header, jwpPS.presentation_protected_header,
            Payloads.erased false jwpPS.payloads, jwpPS.proof⟩ :=
  C1_roundtrip boolToVec boolFromSlice false ihToVecW ihFromSliceW phToVecW
    phFromSliceW signW proofGenW strValW intValW
    (IssuerProtectedHeader.new .BBS) jcSample jwkPriv jwpIS (by decide)
    pbSample jwkPub ⟨["a"]⟩ jwpPS (by decide) (by decide) (by decide)
    (by decide) (by decide) (by decide) (by decide) (by decide) (by decide)
    (by decide) (by decide) (by decide) (by decide) (by decide) (by decide)
    (by decide) (by decide) (by decide)

/-! ## Claim C2 -/

/-- C2 (confirmed): for a payload vector of length `n` whose entries are
tagged Disclosed or Undisclosed, the COMPACT output of
`JwpPresented::serialize` has the payload segment as its third
dot-piece; that segment splits on `~` into exactly `n` tokens, the token
at position `i` is empty exactly when payload `i` is Undisclosed, and
every token of a Disclosed position equals the base64url-nopad encoding
of the serde bytes of the value at that position. -/
theorem C2_payload_segment {Value : Type}
    (toVec : Value → List Nat) (pl : Payloads Value) (n : Nat)
    (hn : pl.val.length = n)
    (htags : ∀ p ∈ pl.val, p.2 = PayloadType.Disclosed ∨
      p.2 = PayloadType.Undisclosed)
    (hne : ∀ p ∈ pl.val, toVec p.1 ≠ [])
    (ph_oct ih_oct proof : List Nat) :
    splitn 4 46 (JwpPresented.serialize toVec ph_oct ih_oct pl proof) =
      [b64urlEncode ih_oct, b64urlEncode ph_oct, encodePayloads toVec pl,
        b64urlEncode proof] ∧
    (splitn n 126 (encodePayloads toVec pl)).length = n ∧
    ∀ i, i < n → ∃ t p,
      (splitn n 126 (encodePayloads toVec pl)).get? i = some t ∧
      pl.val.get? i = some p ∧
      (t = [] ↔ p.2 = PayloadType.Undisclosed) ∧
      (p.2 = PayloadType.Disclosed → t = b64urlEncode (toVec p.1)) := by
  have hseg := splitn_segment toVec pl n hn.symm
  refine ⟨?_, ?_, ?_⟩
  · exact splitn_four _ _ _ _ (b64urlEncode_not_dot _)
      (b64urlEncode_not_dot _) (not_dot_encodePayloads _ _)
      (b64urlEncode_not_dot _)
  · rw [hseg, payloadTokens_length, hn]
  · intro i hi
    have hlt : i < pl.val.length := by omega
    have hp : pl.val.get? i = some (pl.val.get ⟨i, hlt⟩) :=
      List.get?_eq_get hlt
    refine ⟨if (pl.val.get ⟨i, hlt⟩).2 = PayloadType.Undisclosed then []
      else b64urlEncode (toVec (pl.val.get ⟨i, hlt⟩).1),
      pl.val.get ⟨i, hlt⟩, ?_, hp, ?_, ?_⟩
    · rw [hseg]
      unfold payloadTokens
      rw [List.get?_map, hp]
      rfl
    · have hpm : pl.val.get ⟨i, hlt⟩ ∈ pl.val := List.get_mem _ _ _
      constructor
      · intro ht
        by_cases hu : (pl.val.get ⟨i, hlt⟩).2 = PayloadType.Undisclosed
        · exact hu
        · rw [if_neg hu] at ht
          exact absurd ht (b64urlEncode_ne_nil _ (hne _ hpm))
      · intro hu
        rw [if_pos hu]
    · intro hd
      have hu : (pl.val.get ⟨i, hlt⟩).2 ≠ PayloadType.Undisclosed := by
        rw [hd]
        decide
      rw [if_neg hu]

/-- C2 witness: the payload-segment shape at a concrete two-entry
payload vector with one Undisclosed entry. -/
theorem C2_payload_segment_witness :
    splitn 4 46 (JwpPresented.serialize boolToVec [3] [2]
      (⟨[(true, PayloadType.Undisclosed), (false, PayloadType.Disclosed)]⟩ :
        Payloads Bool) [9]) =
      [b64urlEncode [2], b64urlEncode [3],
        encodePayloads boolToVec
          ⟨[(true, PayloadType.Undisclosed), (false, PayloadType.Disclosed)]⟩,
        b64urlEncode [9]] ∧
    (splitn 2 126 (encodePayloads boolToVec
      (⟨[(true, PayloadType.Undisclosed), (false, PayloadType.Disclosed)]⟩ :
        Payloads Bool))).length = 2 ∧
    ∀ i, i < 2 → ∃ t p,
      (splitn 2 126 (encodePayloads boolToVec
        (⟨[(true, PayloadType.Undisclosed), (false, PayloadType.Disclosed)]⟩ :
          Payloads Bool))).get? i = some t ∧
      ([(true, PayloadType.Undisclosed),
        (false, PayloadType.Disclosed)]).get? i = some p ∧
      (t = [] ↔ p.2 = PayloadType.Undisclosed) ∧
      (p.2 = PayloadType.Disclosed → t = b64urlEncode (boolToVec p.1)) :=
  C2_payload_segment boolToVec
    ⟨[(true, PayloadType.Undisclosed), (false, PayloadType.Disclosed)]⟩ 2
    (by decide) (by decide) (by decide) [3] [2] [9]

/-! ## Claim C3 -/

/-- A second concrete issuer header, carrying two claim names. -/
def ihSample2 : IssuerProtectedHeader :=
  { typ := some "JPT", alg := .BBS, kid := none, cid := none,
    claims := some ⟨["a", "b"]⟩, crit := none, iss := none, proof_key := none }

/-- The matching concrete issuer-header parser. -/
def ihFromSliceW2 : List Nat → Option IssuerProtectedHeader := fun l =>
  if l = [4] then some ihSample2 else none

theorem splitn_joinSep_of_le (sep : Nat) (ts : List (List Nat)) (n : Nat)
    (hne : ts ≠ []) (hlen : ts.length ≤ n) (h : ∀ t ∈ ts, sep ∉ t) :
    splitn n sep (joinSep sep ts) = ts := by
  match ts, n with
  | [], _ => exact absurd rfl hne
  | [t], n + 1 =>
      have ht : sep ∉ t := h t (by simp)
      match n with
      | 0 => rfl
      | m + 1 =>
          show (match splitFirst sep (joinSep sep [t]) with
            | none => [joinSep sep [t]]
            | some (a, b) => a :: splitn (m + 1) sep b) = [t]
          have hj : joinSep sep [t] = t := rfl
          rw [hj, splitFirst_not_mem sep t ht]
  | t :: t2 :: rest, n =>
      have ht : sep ∉ t := h t (by simp)
      have hrest : ∀ u ∈ t2 :: rest, sep ∉ u := by
        intro u hu
        exact h u (by simp only [List.mem_cons] at hu ⊢; tauto)
      match n with
      | 0 => simp at hlen
      | 1 =>
          simp only [List.length_cons] at hlen
          omega
      | m + 2 =>
          have hm : (t2 :: rest).length ≤ m + 1 := by
            simp only [List.length_cons] at hlen ⊢
            omega
          show (match splitFirst sep (joinSep sep (t :: t2 :: rest)) with
            | none => [joinSep sep (t :: t2 :: rest)]
            | some (a, b) => a :: splitn (m + 1) sep b) = t :: t2 :: rest
          have hj : joinSep sep (t :: t2 :: rest) =
              t ++ sep :: joinSep sep (t2 :: rest) := rfl
          rw [hj, splitFirst_append sep t _ ht]
          show t :: splitn (m + 1) sep (joinSep sep (t2 :: rest)) =
            t :: t2 :: rest
          rw [splitn_joinSep_of_le sep (t2 :: rest) (m + 1) (by simp) hm hrest]

theorem decodePayloadTokens_all_some {Value : Type}
    (fromSlice : List Nat → Option Value) (nullV : Value)
    (ts : List (List Nat))
    (h : ∀ t ∈ ts, ∃ p, decodePayloadToken fromSlice nullV t = some p) :
    ∃ ps, decodePayloadTokens fromSlice nullV ts = some ps ∧
      ps.length = ts.length := by
  induction ts with
  | nil => exact ⟨[], rfl, rfl⟩
  | cons t rest ih =>
      obtain ⟨p, hp⟩ := h t (by simp)
      obtain ⟨ps, hps, hlen⟩ := ih (fun u hu => h u (by simp [hu]))
      refine ⟨p :: ps, ?_, by simp [hlen]⟩
      show (match decodePayloadToken fromSlice nullV t,
        decodePayloadTokens fromSlice nullV rest with
        | some q, some qs => some (q :: qs)
        | _, _ => none) = some (p :: ps)
      rw [hp, hps]

/-- C3 (amended): `JwpIssuedDecoder::decode(jpt, COMPACT)` returns
`InvalidIssuedJwp` whenever the string does not split on `.` into three
pieces (`splitn(3, '.')` yields fewer than three), and whenever the
middle piece splits on `~` into fewer tokens than `|header.claims|` with
every token decodable. When the middle piece holds more `~`-groups than
`|header.claims|`, `splitn(|header.claims|, "~")` caps the token count,
the excess `~`s stay inside the last token, and decode panics in
base64url decoding instead of returning `InvalidIssuedJwp` (see the
counterexample). -/
theorem C3_invalid_issued {Value : Type}
    (ihFromSlice : List Nat → Option IssuerProtectedHeader)
    (fromSlice : List Nat → Option Value) (nullV : Value) :
    (∀ jpt : List Nat, (splitn 3 46 jpt).length < 3 →
      JwpIssuedDecoder.decode ihFromSlice fromSlice nullV jpt =
        .err .InvalidIssuedJwp) ∧
    (∀ (hbytes s : List Nat) (header : IssuerProtectedHeader) (cl : Claims)
      (ts : List (List Nat)),
      (∀ b ∈ hbytes, b < 256) →
      ihFromSlice hbytes = some header →
      header.claims = some cl →
      ts ≠ [] →
      ts.length < cl.val.length →
      (∀ t ∈ ts, 126 ∉ t) →
      (∀ t ∈ ts, 46 ∉ t) →
      (∀ t ∈ ts, ∃ p, decodePayloadToken fromSlice nullV t = some p) →
      46 ∉ s →
      JwpIssuedDecoder.decode ihFromSlice fromSlice nullV
        (b64urlEncode hbytes ++ 46 :: (joinSep 126 ts ++ 46 :: s)) =
        .err .InvalidIssuedJwp) := by
  constructor
  · intro jpt hlen
    unfold JwpIssuedDecoder.decode
    match hsp : splitn 3 46 jpt with
    | [] => rfl
    | [_] => rfl
    | [_, _] => rfl
    | [_, _, _] => rw [hsp] at hlen; simp at hlen
    | _ :: _ :: _ :: _ :: _ => rfl
  · intro hbytes s header cl ts hb hih hcl htne htlen htilde hdot hdec hs
    have h3 : splitn 3 46
        (b64urlEncode hbytes ++ 46 :: (joinSep 126 ts ++ 46 :: s)) =
        [b64urlEncode hbytes, joinSep 126 ts, s] := by
      refine splitn_three _ _ _ (b64urlEncode_not_dot _) ?_ hs
      intro hmem
      rcases mem_joinSep ts hmem with h1 | ⟨t, ht, hx⟩
      · omega
      · exact hdot t ht hx
    have hseg : splitn cl.val.length 126 (joinSep 126 ts) = ts :=
      splitn_joinSep_of_le 126 ts cl.val.length htne (by omega) htilde
    obtain ⟨ps, hps, hpslen⟩ :=
      decodePayloadTokens_all_some fromSlice nullV ts hdec
    unfold JwpIssuedDecoder.decode
    rw [h3]
    simp only [b64urlDecode_b64urlEncode _ hb, hih, hcl, hseg, hps]
    rw [if_neg (by omega)]

/-- C3 counterexample: a compact string whose header carries one claim
name but whose middle piece holds three `~`-tokens; the claim demands
`InvalidIssuedJwp`, yet `splitn(1, "~")` keeps the `~`s inside the single
piece and decode panics inside `base64url_decode`. -/
theorem C3_invalid_issued_counterexample :
    splitn 3 126 [126, 126] = [[], [], []] ∧
    JwpIssuedDecoder.decode ihFromSliceW boolFromSlice false
        (b64urlEncode [2] ++ 46 :: ([126, 126] ++ 46 :: [])) = .panics ∧
    (PResult.panics ≠
      (.err .InvalidIssuedJwp : PResult CustomError (JwpIssuedDecoder Bool))) := by
  refine ⟨by decide, by decide, by decide⟩

/-- C3 witness: the two `InvalidIssuedJwp` branches at concrete inputs —
a dot-less string, and a token list shorter than the claim count. -/
theorem C3_invalid_issued_witness :
    JwpIssuedDecoder.decode ihFromSliceW2 boolFromSlice false [65] =
      .err .InvalidIssuedJwp ∧
    JwpIssuedDecoder.decode ihFromSliceW2 boolFromSlice false
        (b64urlEncode [4] ++ 46 :: (joinSep 126 [[]] ++ 46 :: [])) =
      .err .InvalidIssuedJwp :=
  ⟨(C3_invalid_issued ihFromSliceW2 boolFromSlice false).1 [65] (by decide),
    (C3_invalid_issued ihFromSliceW2 boolFromSlice false).2 [4] [] ihSample2
      ⟨["a", "b"]⟩ [[]] (by decide) (by decide) (by decide) (by decide)
      (by decide) (by decide) (by decide)
      (by intro t ht
          refine ⟨(false, PayloadType.Undisclosed), ?_⟩
          have : t = [] := by
            simp only [List.mem_singleton] at ht
            exact ht
          rw [this]
          rfl)
      (by decide)⟩

/-! ## Claim C4 -/

/-- C4 (confirmed): for a BBS-family algorithm and a private Octet Key
Pair JWK whose curve is not BLS12-381 G2, `generate_issuer_proof`
returns `ProofGenerationError("key is not compatible")` — and it does so
for every possible signing function, i.e. without invoking the BBS
primitive; and `check_alg_curve_compatibility` accepts exactly the pairs
(BBS, BLS12381G2) and (BBS-SHAKE256, BLS12381G2). -/
theorem C4_compatibility_gate {Value : Type}
    (sign : ProofAlgorithm → List Nat → List Nat → List Nat →
      List (List Nat) → List Nat)
    (toVec : Value → List Nat) (alg : ProofAlgorithm)
    (jwk : Jwk) (params : JwkOctetKeyPairParameters)
    (payloads : Payloads Value) (hdr : List Nat)
    (halg : alg = .BBS ∨ alg = .BBS_SHAKE256)
    (hparams : jwk.key_params = .OctetKeyPair params)
    (hpriv : params.is_private = true)
    (hcrv : params.crv ≠ .Bls12381G2) :
    BBSplusAlgorithm.generate_issuer_proof sign toVec alg payloads jwk hdr =
      .err (.ProofGenerationError "key is not compatible") ∧
    (∀ (a : Algorithm) (c : EllipticCurveTypes),
      check_alg_curve_compatibility a c = true ↔
        ((a = .Proof .BBS ∨ a = .Proof .BBS_SHAKE256) ∧ c = .Bls12381G2)) := by
  have hiff : ∀ (a : Algorithm) (c : EllipticCurveTypes),
      check_alg_curve_compatibility a c = true ↔
        ((a = .Proof .BBS ∨ a = .Proof .BBS_SHAKE256) ∧ c = .Bls12381G2) := by
    intro a c
    rcases a with ⟨pa⟩
    cases pa <;> cases c <;> decide
  refine ⟨?_, hiff⟩
  have hcompat : check_alg_curve_compatibility (.Proof alg) params.crv = false := by
    cases hcc : check_alg_curve_compatibility (.Proof alg) params.crv with
    | false => rfl
    | true => exact absurd ((hiff _ _).mp hcc).2 hcrv
  unfold BBSplusAlgorithm.generate_issuer_proof
  rw [hparams]
  simp [hpriv, hcompat, keyNotCompatible]

/-- C4 witness: the gate at algorithm BBS and a private P-256 OKP key. -/
theorem C4_compatibility_gate_witness :
    BBSplusAlgorithm.generate_issuer_proof signW boolToVec .BBS
        (⟨[(true, PayloadType.Disclosed)]⟩ : Payloads Bool)
        (Jwk.from_key_params
          (.OctetKeyPair ⟨.OctetKeyPair, .P256, [], some []⟩)) [0] =
      .err (.ProofGenerationError "key is not compatible") ∧
    (∀ (a : Algorithm) (c : EllipticCurveTypes),
      check_alg_curve_compatibility a c = true ↔
        ((a = .Proof .BBS ∨ a = .Proof .BBS_SHAKE256) ∧ c = .Bls12381G2)) :=
  C4_compatibility_gate signW boolToVec .BBS
    (Jwk.from_key_params (.OctetKeyPair ⟨.OctetKeyPair, .P256, [], some []⟩))
    ⟨.OctetKeyPair, .P256, [], some []⟩
    ⟨[(true, PayloadType.Disclosed)]⟩ [0]
    (by decide) (by decide) (by decide) (by decide)

/-! ## Claim C5 -/

/-- C5 (confirmed): `get_claims_and_payloads` returns a claim vector and
a payload vector of equal length, every payload is tagged Disclosed, and
at each position `i` the claim name and the payload value are exactly
the key and the value of the i-th serialized object entry of the
`JptClaims`. -/
theorem C5_claims_payloads_alignment {Value : Type} (strVal : String → Value)
    (intVal : Int → Value) (jc : JptClaims Value) :
    (jc.get_claims_and_payloads strVal intVal).1.val.length =
      (jc.get_claims_and_payloads strVal intVal).2.val.length ∧
    (∀ p ∈ (jc.get_claims_and_payloads strVal intVal).2.val,
      p.2 = PayloadType.Disclosed) ∧
    ∀ i, i < (jc.get_claims_and_payloads strVal intVal).1.val.length →
      ∃ name v,
        (jc.get_claims_and_payloads strVal intVal).1.val.get? i = some name ∧
        (jc.get_claims_and_payloads strVal intVal).2.val.get? i =
          some (v, PayloadType.Disclosed) ∧
        (jc.toObjectPairs strVal intVal).get? i = some (name, v) := by
  refine ⟨gcp_length strVal intVal jc, gcp_disclosed strVal intVal jc, ?_⟩
  intro i hi
  have hlt : i < (jc.toObjectPairs strVal intVal).length := by
    simp only [JptClaims.get_claims_and_payloads, List.length_map] at hi
    exact hi
  have hpr : (jc.toObjectPairs strVal intVal).get? i =
      some ((jc.toObjectPairs strVal intVal).get ⟨i, hlt⟩) :=
    List.get?_eq_get hlt
  refine ⟨((jc.toObjectPairs strVal intVal).get ⟨i, hlt⟩).1,
    ((jc.toObjectPairs strVal intVal).get ⟨i, hlt⟩).2, ?_, ?_, by rw [hpr]⟩
  · show ((jc.toObjectPairs strVal intVal).map Prod.fst).get? i = _
    rw [List.get?_map, hpr]
    rfl
  · show (((jc.toObjectPairs strVal intVal).map Prod.snd).map
      (fun value => (value, PayloadType.Disclosed))).get? i = _
    rw [List.get?_map, List.get?_map, hpr]
    rfl

/-- C5 witness: the alignment at the concrete one-claim `JptClaims`. -/
theorem C5_claims_payloads_alignment_witness :
    (jcSample.get_claims_and_payloads strValW intValW).1.val.length =
      (jcSample.get_claims_and_payloads strValW intValW).2.val.length ∧
    (∀ p ∈ (jcSample.get_claims_and_payloads strValW intValW).2.val,
      p.2 = PayloadType.Disclosed) ∧
    ∀ i, i < (jcSample.get_claims_and_payloads strValW intValW).1.val.length →
      ∃ name v,
        (jcSample.get_claims_and_payloads strValW intValW).1.val.get? i =
          some name ∧
        (jcSample.get_claims_and_payloads strValW intValW).2.val.get? i =
          some (v, PayloadType.Disclosed) ∧
        (jcSample.toObjectPairs strValW intValW).get? i = some (name, v) :=
  C5_claims_payloads_alignment strValW intValW jcSample

/-! ## Claims C6 and C7 -/

theorem set_undisclosed_get {Value : Type} (p : Payloads Value) (i j : Nat) :
    (p.set_undisclosed i).val.get? j =
      (p.val.get? j).map
        (fun q => if i = j then (q.1, PayloadType.Undisclosed) else q) := by
  unfold Payloads.set_undisclosed
  show (p.val.enum.map _).get? j = _
  rw [List.get?_map, List.get?_enum]
  cases p.val.get? j with
  | none => rfl
  | some q => rfl

theorem set_undisclosed_length {Value : Type} (p : Payloads Value) (i : Nat) :
    (p.set_undisclosed i).val.length = p.val.length := by
  simp [Payloads.set_undisclosed]

/-- C6 (code_bug evidence): on an Elliptic-Curve JWK, `to_public`
removes `d` and inverts `key_ops` as the claim states, but rewrites the
`kty` field to OKP — the EC constructor sets `kty = EC`, so every other
field being unchanged fails at `kty`. The concrete evaluation shows the
full output. -/
theorem C6_to_public_ec_kty :
    Jwk.to_public
      (Jwk.mk (some "k") (some PKUse.Proof)
        (some [KeyOps.Sign, KeyOps.ProofGeneration])
        (some (Algorithm.Proof ProofAlgorithm.BBS)) (some "u") (some ["c"])
        (some "t")
        (JwkAlgorithmParameters.EllipticCurve
          ⟨KeyType.EllipticCurve, EllipticCurveTypes.Bls12381G2,
            [1], [2], some [3]⟩)) =
      some (Jwk.mk (some "k") (some PKUse.Proof)
        (some [KeyOps.Verify, KeyOps.ProofVerification])
        (some (Algorithm.Proof ProofAlgorithm.BBS)) (some "u") (some ["c"])
        (some "t")
        (JwkAlgorithmParameters.EllipticCurve
          ⟨KeyType.OctetKeyPair, EllipticCurveTypes.Bls12381G2,
            [1], [2], none⟩)) ∧
    KeyType.OctetKeyPair ≠ KeyType.EllipticCurve := by
  refine ⟨by decide, by decide⟩

/-- C7 (amended): `Payloads::set_undisclosed(i)` marks the entry at
position `i` Undisclosed when `i` is within bounds (all other entries
unchanged), and returns the vector unchanged — with no error, the
function has no error channel — when `i` is out of bounds. -/
theorem C7_set_undisclosed {Value : Type} (p : Payloads Value) (i : Nat) :
    (p.val.length ≤ i → p.set_undisclosed i = p) ∧
    (p.set_undisclosed i).val.length = p.val.length ∧
    (∀ j, (p.set_undisclosed i).val.get? j =
      (p.val.get? j).map
        (fun q => if i = j then (q.1, PayloadType.Undisclosed) else q)) := by
  refine ⟨?_, set_undisclosed_length p i, fun j => set_undisclosed_get p i j⟩
  intro hout
  have hval : (p.set_undisclosed i).val = p.val := by
    apply List.ext
    intro j
    rw [set_undisclosed_get]
    cases hq : p.val.get? j with
    | none => rfl
    | some q =>
        have hj : j < p.val.length := by
          by_contra hc2
          rw [List.get?_eq_none.mpr (by omega)] at hq
          cases hq
        have hne2 : i ≠ j := by omega
        simp [hne2]
  have h1 : p.set_undisclosed i = Payloads.mk ((p.set_undisclosed i).val) := rfl
  have h2 : p = Payloads.mk p.val := rfl
  rw [h1, h2, hval]

/-- C7 counterexample: at a one-entry vector and index 5, the claim says
`set_undisclosed` returns `IndexOutOfBounds`, but the function's return
type is `Payloads` itself (Rust signature returns nothing) and it yields
the vector unchanged. -/
theorem C7_set_undisclosed_counterexample :
    (⟨[(true, PayloadType.Disclosed)]⟩ : Payloads Bool).set_undisclosed 5 =
      ⟨[(true, PayloadType.Disclosed)]⟩ := by
  decide

/-- C7 witness: the amended behaviour at a concrete vector — unchanged
at the out-of-range index 5, flipped at the in-range index 0. -/
theorem C7_set_undisclosed_witness :
    (⟨[(true, PayloadType.Disclosed)]⟩ : Payloads Bool).set_undisclosed 5 =
      ⟨[(true, PayloadType.Disclosed)]⟩ ∧
    ((⟨[(true, PayloadType.Disclosed)]⟩ : Payloads Bool).set_undisclosed 0).val.get? 0 =
      some (true, PayloadType.Undisclosed) := by
  refine ⟨(C7_set_undisclosed
    (⟨[(true, PayloadType.Disclosed)]⟩ : Payloads Bool) 5).1 (by decide), ?_⟩
  have h := (C7_set_undisclosed
    (⟨[(true, PayloadType.Disclosed)]⟩ : Payloads Bool) 0).2.2 0
  simpa using h

/-! ## Claim C8 -/

/-- C8 (confirmed): `JwpPresentedBuilder::set_undisclosed(name)` returns
`SelectiveDisclosureError` when the name does not occur in the issuer
header's claims vector (also when there is no claims vector at all), and
otherwise flips exactly the payload at the index of that name — the
entry at the found index gets tag Undisclosed with its value kept, every
other entry is unchanged. -/
theorem C8_set_undisclosed_name {Value : Type}
    (b : JwpPresentedBuilder Value) (claim : String) :
    ((b.issuer_protected_header.claims = none ∨
      (∃ cl, b.issuer_protected_header.claims = some cl ∧
        claim ∉ cl.val)) →
      b.set_undisclosed claim = .err .SelectiveDisclosureError) ∧
    (∀ (cl : Claims) (i : Nat),
      b.issuer_protected_header.claims = some cl →
      cl.val.findIdx? (fun x => x == claim) = some i →
      b.set_undisclosed claim =
        .ok { b with payloads := b.payloads.set_undisclosed i } ∧
      ∀ j, (b.payloads.set_undisclosed i).val.get? j =
        (b.payloads.val.get? j).map
          (fun q => if i = j then (q.1, PayloadType.Undisclosed) else q)) := by
  constructor
  · intro habs
    unfold JwpPresentedBuilder.set_undisclosed
    rcases habs with hnone | ⟨cl, hsome, hnm⟩
    · rw [hnone]
      rfl
    · rw [hsome]
      have hfind : cl.val.findIdx? (fun x => x == claim) = none := by
        rw [List.findIdx?_eq_none_iff]
        intro x hx
        by_cases hxc : x = claim
        · exact absurd (hxc ▸ hx) hnm
        · simp [hxc]
      show (match (some cl).bind
          (fun c => c.val.findIdx? (fun x => x == claim)) with
        | none => PResult.err CustomError.SelectiveDisclosureError
        | some index =>
            PResult.ok { b with payloads := b.payloads.set_undisclosed index }) =
        PResult.err CustomError.SelectiveDisclosureError
      rw [Option.some_bind, hfind]
  · intro cl i hsome hfind
    refine ⟨?_, fun j => set_undisclosed_get b.payloads i j⟩
    unfold JwpPresentedBuilder.set_undisclosed
    rw [hsome]
    show (match (some cl).bind
        (fun c => c.val.findIdx? (fun x => x == claim)) with
      | none => PResult.err CustomError.SelectiveDisclosureError
      | some index =>
          PResult.ok { b with payloads := b.payloads.set_undisclosed index }) = _
    rw [Option.some_bind, hfind]

/-- C8 witness: error on an absent name and the exact flip on a present
name, at a concrete two-claim builder. -/
theorem C8_set_undisclosed_name_witness :
    (JwpPresentedBuilder.mk ihSample2 none
        ⟨[(true, PayloadType.Disclosed), (false, PayloadType.Disclosed)]⟩
        [7] : JwpPresentedBuilder Bool).set_undisclosed "zz" =
      .err .SelectiveDisclosureError ∧
    ((JwpPresentedBuilder.mk ihSample2 none
        ⟨[(true, PayloadType.Disclosed), (false, PayloadType.Disclosed)]⟩
        [7] : JwpPresentedBuilder Bool).set_undisclosed "b" =
      .ok (JwpPresentedBuilder.mk ihSample2 none
        ((⟨[(true, PayloadType.Disclosed), (false, PayloadType.Disclosed)]⟩ :
          Payloads Bool).set_undisclosed 1) [7]) ∧
      ∀ j, (((⟨[(true, PayloadType.Disclosed), (false, PayloadType.Disclosed)]⟩ :
          Payloads Bool)).set_undisclosed 1).val.get? j =
        (([(true, PayloadType.Disclosed),
            (false, PayloadType.Disclosed)] :
            List (Bool × PayloadType)).get? j).map
          (fun q => if 1 = j then (q.1, PayloadType.Undisclosed) else q)) :=
  ⟨(C8_set_undisclosed_name (JwpPresentedBuilder.mk ihSample2 none
      ⟨[(true, PayloadType.Disclosed), (false, PayloadType.Disclosed)]⟩ [7])
      "zz").1
      (Or.inr ⟨⟨["a", "b"]⟩, by decide, by decide⟩),
    (C8_set_undisclosed_name (JwpPresentedBuilder.mk ihSample2 none
      ⟨[(true, PayloadType.Disclosed), (false, PayloadType.Disclosed)]⟩ [7])
      "b").2 ⟨["a", "b"]⟩ 1 (by decide) (by decide)⟩

/-! ## Claim C9 -/

/-- C9 (code_bug evidence): the serde token of the BLS12-381 G2 curve
variant is `"Bls12381G2"` (fixed by its rename attribute), not
`"BLS12381G2"`; deserializing `"BLS12381G2"` fails, although the
repository's own header tests (src/jwp/header.rs) feed JWKs with
`"crv": "BLS12381G2"` and expect them to parse. -/
theorem C9_curve_token :
    EllipticCurveTypes.serdeToken .Bls12381G2 = "Bls12381G2" ∧
    "Bls12381G2" ≠ "BLS12381G2" ∧
    EllipticCurveTypes.fromToken "BLS12381G2" = none ∧
    EllipticCurveTypes.fromToken "Bls12381G2" = some .Bls12381G2 := by
  refine ⟨rfl, by decide, by decide, by decide⟩

/-! ## Claim C10 -/

theorem decodePayloadToken_none_of_bad {Value : Type}
    (fromSlice : List Nat → Option Value) (nullV : Value) (t : List Nat)
    (htne : t ≠ [])
    (hbad : b64urlDecode t = none ∨
      ∃ bs, b64urlDecode t = some bs ∧ fromSlice bs = none) :
    decodePayloadToken fromSlice nullV t = none := by
  unfold decodePayloadToken
  rw [if_neg htne]
  rcases hbad with hb1 | ⟨bs, hb2, hb3⟩
  · rw [hb1]
  · rw [hb2]
    show (match fromSlice bs with
      | none => none
      | some val => some (val, PayloadType.Disclosed)) = none
    rw [hb3]

theorem decodePayloadTokens_none {Value : Type}
    (fromSlice : List Nat → Option Value) (nullV : Value)
    (ts : List (List Nat)) (t : List Nat) (ht : t ∈ ts)
    (h : decodePayloadToken fromSlice nullV t = none) :
    decodePayloadTokens fromSlice nullV ts = none := by
  induction ts with
  | nil => simp at ht
  | cons u rest ih =>
      show (match decodePayloadToken fromSlice nullV u,
        decodePayloadTokens fromSlice nullV rest with
        | some q, some qs => some (q :: qs)
        | _, _ => none) = none
      rcases List.mem_cons.mp ht with hu | hmem
      · rw [hu] at h
        rw [h]
      · rw [ih hmem]
        cases decodePayloadToken fromSlice nullV u <;> rfl

/-- C10 (confirmed): both decoders panic — they do not return a typed
`CustomError` — (i) whenever the decoded issuer protected header has no
claims field (the `claims().unwrap()` runs before the `None`-tolerant
length check, which is therefore unreachable), (ii) whenever a non-empty
payload token is not valid base64url-nopad or its bytes are not valid
JSON, and (iii) whenever the proof piece is not valid base64url-nopad. -/
theorem C10_decoder_panics {Value : Type}
    (ihFromSlice : List Nat → Option IssuerProtectedHeader)
    (phFromSlice : List Nat → Option PresentationProtectedHeader)
    (fromSlice : List Nat → Option Value) (nullV : Value) :
    (∀ (hb mid s : List Nat) (header : IssuerProtectedHeader),
      (∀ b ∈ hb, b < 256) → 46 ∉ mid → 46 ∉ s →
      ihFromSlice hb = some header → header.claims = none →
      JwpIssuedDecoder.decode ihFromSlice fromSlice nullV
        (b64urlEncode hb ++ 46 :: (mid ++ 46 :: s)) = .panics) ∧
    (∀ (hb s : List Nat) (header : IssuerProtectedHeader) (cl : Claims)
      (ts : List (List Nat)) (t : List Nat),
      (∀ b ∈ hb, b < 256) → 46 ∉ s →
      ihFromSlice hb = some header → header.claims = some cl →
      ts.length = cl.val.length →
      (∀ u ∈ ts, 126 ∉ u) → (∀ u ∈ ts, 46 ∉ u) →
      t ∈ ts → t ≠ [] →
      (b64urlDecode t = none ∨
        ∃ bs, b64urlDecode t = some bs ∧ fromSlice bs = none) →
      JwpIssuedDecoder.decode ihFromSlice fromSlice nullV
        (b64urlEncode hb ++ 46 :: (joinSep 126 ts ++ 46 :: s)) = .panics) ∧
    (∀ (hb s : List Nat) (header : IssuerProtectedHeader) (cl : Claims)
      (ts : List (List Nat)),
      (∀ b ∈ hb, b < 256) → 46 ∉ s →
      ihFromSlice hb = some header → header.claims = some cl →
      ts.length = cl.val.length →
      (∀ u ∈ ts, 126 ∉ u) → (∀ u ∈ ts, 46 ∉ u) →
      (∀ u ∈ ts, ∃ p, decodePayloadToken fromSlice nullV u = some p) →
      b64urlDecode s = none →
      JwpIssuedDecoder.decode ihFromSlice fromSlice nullV
        (b64urlEncode hb ++ 46 :: (joinSep 126 ts ++ 46 :: s)) = .panics) ∧
    (∀ (hb pb mid s : List Nat) (header : IssuerProtectedHeader)
      (phdr : PresentationProtectedHeader),
      (∀ b ∈ hb, b < 256) → (∀ b ∈ pb, b < 256) → 46 ∉ mid → 46 ∉ s →
      phFromSlice pb = some phdr →
      ihFromSlice hb = some header → header.claims = none →
      JwpPresentedDecoder.decode ihFromSlice phFromSlice fromSlice nullV
        (b64urlEncode hb ++ 46 :: (b64urlEncode pb ++ 46 ::
          (mid ++ 46 :: s))) = .panics) ∧
    (∀ (hb pb s : List Nat) (header : IssuerProtectedHeader)
      (phdr : PresentationProtectedHeader) (cl : Claims)
      (ts : List (List Nat)) (t : List Nat),
      (∀ b ∈ hb, b < 256) → (∀ b ∈ pb, b < 256) → 46 ∉ s →
      phFromSlice pb = some phdr →
      ihFromSlice hb = some header → header.claims = some cl →
      ts.length = cl.val.length →
      (∀ u ∈ ts, 126 ∉ u) → (∀ u ∈ ts, 46 ∉ u) →
      t ∈ ts → t ≠ [] →
      (b64urlDecode t = none ∨
        ∃ bs, b64urlDecode t = some bs ∧ fromSlice bs = none) →
      JwpPresentedDecoder.decode ihFromSlice phFromSlice fromSlice nullV
        (b64urlEncode hb ++ 46 :: (b64urlEncode pb ++ 46 ::
          (joinSep 126 ts ++ 46 :: s))) = .panics) ∧
    (∀ (hb pb s : List Nat) (header : IssuerProtectedHeader)
      (phdr : PresentationProtectedHeader) (cl : Claims)
      (ts : List (List Nat)),
      (∀ b ∈ hb, b < 256) → (∀ b ∈ pb, b < 256) → 46 ∉ s →
      phFromSlice pb = some phdr →
      ihFromSlice hb = some header → header.claims = some cl →
      ts.length = cl.val.length →
      (∀ u ∈ ts, 126 ∉ u) → (∀ u ∈ ts, 46 ∉ u) →
      (∀ u ∈ ts, ∃ p, decodePayloadToken fromSlice nullV u = some p) →
      b64urlDecode s = none →
      JwpPresentedDecoder.decode ihFromSlice phFromSlice fromSlice nullV
        (b64urlEncode hb ++ 46 :: (b64urlEncode pb ++ 46 ::
          (joinSep 126 ts ++ 46 :: s))) = .panics) := by
  have hjdot : ∀ (ts : List (List Nat)), (∀ u ∈ ts, 46 ∉ u) →
      46 ∉ joinSep 126 ts := by
    intro ts hdot hmem
    rcases mem_joinSep ts hmem with h1 | ⟨u, hu, hx⟩
    · omega
    · exact hdot u hu hx
  refine ⟨?_, ?_, ?_, ?_, ?_, ?_⟩
  · intro hb mid s header hbb hmid hs hih hnone
    have h3 := splitn_three (b64urlEncode hb) mid s
      (b64urlEncode_not_dot _) hmid hs
    unfold JwpIssuedDecoder.decode
    rw [h3]
    simp only [b64urlDecode_b64urlEncode _ hbb, hih, hnone]
  · intro hb s header cl ts t hbb hs hih hcl hlen htld hdot htm htne hbad
    have h3 := splitn_three (b64urlEncode hb) (joinSep 126 ts) s
      (b64urlEncode_not_dot _) (hjdot ts hdot) hs
    have hseg : splitn cl.val.length 126 (joinSep 126 ts) = ts := by
      rw [← hlen]
      exact splitn_joinSep 126 ts htld
    have hnone := decodePayloadTokens_none fromSlice nullV ts t htm
      (decodePayloadToken_none_of_bad fromSlice nullV t htne hbad)
    unfold JwpIssuedDecoder.decode
    rw [h3]
    simp only [b64urlDecode_b64urlEncode _ hbb, hih, hcl, hseg, hnone]
  · intro hb s header cl ts hbb hs hih hcl hlen htld hdot hdec hsbad
    have h3 := splitn_three (b64urlEncode hb) (joinSep 126 ts) s
      (b64urlEncode_not_dot _) (hjdot ts hdot) hs
    have hseg : splitn cl.val.length 126 (joinSep 126 ts) = ts := by
      rw [← hlen]
      exact splitn_joinSep 126 ts htld
    obtain ⟨ps, hps, hpslen⟩ :=
      decodePayloadTokens_all_some fromSlice nullV ts hdec
    unfold JwpIssuedDecoder.decode
    rw [h3]
    simp only [b64urlDecode_b64urlEncode _ hbb, hih, hcl, hseg, hps, hsbad]
    rw [if_pos (by omega)]
  · intro hb pb mid s header phdr hbb hpbb hmid hs hph hih hnone
    have h4 := splitn_four (b64urlEncode hb) (b64urlEncode pb) mid s
      (b64urlEncode_not_dot _) (b64urlEncode_not_dot _) hmid hs
    unfold JwpPresentedDecoder.decode
    rw [h4]
    simp only [b64urlDecode_b64urlEncode _ hbb,
      b64urlDecode_b64urlEncode _ hpbb, hph, hih, hnone]
  · intro hb pb s header phdr cl ts t hbb hpbb hs hph hih hcl hlen htld
      hdot htm htne hbad
    have h4 := splitn_four (b64urlEncode hb) (b64urlEncode pb)
      (joinSep 126 ts) s (b64urlEncode_not_dot _) (b64urlEncode_not_dot _)
      (hjdot ts hdot) hs
    have hseg : splitn cl.val.length 126 (joinSep 126 ts) = ts := by
      rw [← hlen]
      exact splitn_joinSep 126 ts htld
    have hnone := decodePayloadTokens_none fromSlice nullV ts t htm
      (decodePayloadToken_none_of_bad fromSlice nullV t htne hbad)
    unfold JwpPresentedDecoder.decode
    rw [h4]
    simp only [b64urlDecode_b64urlEncode _ hbb,
      b64urlDecode_b64urlEncode _ hpbb, hph, hih, hcl, hseg, hnone]
  · intro hb pb s header phdr cl ts hbb hpbb hs hph hih hcl hlen htld hdot
      hdec hsbad
    have h4 := splitn_four (b64urlEncode hb) (b64urlEncode pb)
      (joinSep 126 ts) s (b64urlEncode_not_dot _) (b64urlEncode_not_dot _)
      (hjdot ts hdot) hs
    have hseg : splitn cl.val.length 126 (joinSep 126 ts) = ts := by
      rw [← hlen]
      exact splitn_joinSep 126 ts htld
    obtain ⟨ps, hps, hpslen⟩ :=
      decodePayloadTokens_all_some fromSlice nullV ts hdec
    unfold JwpPresentedDecoder.decode
    rw [h4]
    simp only [b64urlDecode_b64urlEncode _ hbb,
      b64urlDecode_b64urlEncode _ hpbb, hph, hih, hcl, hseg, hps, hsbad]
    rw [if_pos (by omega)]

/-- A concrete issuer header without a claims field. -/
def ihSampleNC : IssuerProtectedHeader :=
  { typ := some "JPT", alg := .BBS, kid := none, cid := none,
    claims := none, crit := none, iss := none, proof_key := none }

/-- A concrete issuer-header parser serving both a claims-less header
(bytes `[6]`) and a one-claim header (bytes `[2]`). -/
def ihFromSliceW4 : List Nat → Option IssuerProtectedHeader := fun l =>
  if l = [6] then some ihSampleNC
  else if l = [2] then some ihSample else none

/-- C10 witness: all six panic shapes at concrete compact strings — a
claims-less header, an invalid non-empty payload token, and an invalid
proof piece, for the issued and the presented decoder. -/
theorem C10_decoder_panics_witness :
    JwpIssuedDecoder.decode ihFromSliceW4 boolFromSlice false
      (b64urlEncode [6] ++ 46 :: ([] ++ 46 :: [])) = .panics ∧
    JwpIssuedDecoder.decode ihFromSliceW4 boolFromSlice false
      (b64urlEncode [2] ++ 46 :: (joinSep 126 [[65]] ++ 46 :: [])) = .panics ∧
    JwpIssuedDecoder.decode ihFromSliceW4 boolFromSlice false
      (b64urlEncode [2] ++ 46 :: (joinSep 126 [[]] ++ 46 :: [65])) = .panics ∧
    JwpPresentedDecoder.decode ihFromSliceW4 phFromSliceW boolFromSlice false
      (b64urlEncode [6] ++ 46 :: (b64urlEncode [3] ++ 46 ::
        ([] ++ 46 :: []))) = .panics ∧
    JwpPresentedDecoder.decode ihFromSliceW4 phFromSliceW boolFromSlice false
      (b64urlEncode [2] ++ 46 :: (b64urlEncode [3] ++ 46 ::
        (joinSep 126 [[65]] ++ 46 :: []))) = .panics ∧
    JwpPresentedDecoder.decode ihFromSliceW4 phFromSliceW boolFromSlice false
      (b64urlEncode [2] ++ 46 :: (b64urlEncode [3] ++ 46 ::
        (joinSep 126 [[]] ++ 46 :: [65]))) = .panics := by
  have hempty : ∀ u ∈ ([[]] : List (List Nat)),
      ∃ p, decodePayloadToken boolFromSlice false u = some p := by
    intro u hu
    refine ⟨(false, PayloadType.Undisclosed), ?_⟩
    have hue : u = [] := by
      simp only [List.mem_singleton] at hu
      exact hu
    rw [hue]
    rfl
  have h := C10_decoder_panics ihFromSliceW4 phFromSliceW boolFromSlice false
  refine ⟨h.1 [6] [] [] ihSampleNC (by decide) (by decide) (by decide)
      (by decide) (by decide),
    h.2.1 [2] [] ihSample ⟨["a"]⟩ [[65]] [65] (by decide) (by decide)
      (by decide) (by decide) (by decide) (by decide) (by decide) (by decide)
      (by decide) (Or.inl (by decide)),
    h.2.2.1 [2] [65] ihSample ⟨["a"]⟩ [[]] (by decide) (by decide)
      (by decide) (by decide) (by decide) (by decide) (by decide) hempty
      (by decide),
    h.2.2.2.1 [6] [3] [] [] ihSampleNC phSample (by decide) (by decide)
      (by decide) (by decide) (by decide) (by decide) (by decide),
    h.2.2.2.2.1 [2] [3] [] ihSample phSample ⟨["a"]⟩ [[65]] [65]
      (by decide) (by decide) (by decide) (by decide) (by decide) (by decide)
      (by decide) (by decide) (by decide) (by decide) (by decide)
      (Or.inl (by decide)),
    h.2.2.2.2.2 [2] [3] [65] ihSample phSample ⟨["a"]⟩ [[]]
      (by decide) (by decide) (by decide) (by decide) (by decide) (by decide)
      (by decide) (by decide) (by decide) hempty (by decide)⟩
